import Mathlib

/-!
# Career guide questionnaire: engines, payload assembly and collaborators

A shallow embedding of `src/engine/scoringEngine.js`,
`src/engine/branchingEngine.js`, `src/engine/qualityEngine.js`,
`src/utils/submissionUtils.js`, `src/utils/academicCalendar.js` and
`netlify/functions/submit.js`.

Modelling conventions.

* JavaScript objects are association lists in enumeration order; a property
  read is the first entry with that key and `undefined` when there is none.
  Only own properties are modelled.
* Numbers are exact integers (`Int`). Option weights, scores and thresholds
  of the questionnaire are integers; `Math.round (t / c)` is computed exactly
  as the floor of `t / c + 1 / 2`, and a comparison of a quotient with a decimal
  constant is computed exactly on the integers. The one place where the
  rounding of doubles shows is `checkStraightLining`, whose score is a quotient
  multiplied by 100: there the quotient, its comparison with `0.8` and the
  product are computed on doubles (`toDouble`).
* A function that can throw a `TypeError` returns an `Option`, `none` being
  the exception.
* The scoring configuration (`config/scoring.v1.json`) is a parameter of every
  function that reads it.
-/

namespace CareerGuide

/-! ## Values -/

/-- JavaScript values that answers, option values and `showIf` entries hold. -/
inductive JsVal where
  | undefined
  | null
  | bool (b : Bool)
  | num (n : Int)
  | str (s : String)
  | arr (xs : List JsVal)

/-- Truthiness of a value, as tested by `!answer`: `undefined`, `null`,
`false`, `0` and the empty string are falsy, everything else (every array
included) is truthy. -/
def JsVal.truthy : JsVal → Bool
  | .undefined => false
  | .null => false
  | .bool b => b
  | .num n => n != 0
  | .str s => s != ""
  | .arr _ => true

/-- Strict equality `a === b`. Primitives compare by value; an array is only
equal to itself as a reference, and the arrays of the configuration and of the
answers are distinct references, so a comparison with an array is false. -/
def JsVal.strictEq : JsVal → JsVal → Bool
  | .undefined, .undefined => true
  | .null, .null => true
  | .bool a, .bool b => a == b
  | .num a, .num b => a == b
  | .str a, .str b => a == b
  | _, _ => false

/-- The array test `Array.isArray (v)`. -/
def JsVal.isArray : JsVal → Bool
  | .arr _ => true
  | _ => false

/-- The elements iterated by `for (const x of v)` when `v` is an array. -/
def JsVal.elems : JsVal → List JsVal
  | .arr xs => xs
  | _ => []

/-- The membership test `xs.includes (v)`. -/
def includes (xs : List JsVal) (v : JsVal) : Bool :=
  xs.any (fun x => x.strictEq v)

/-- The answers object: question id to answer value. -/
abbrev Answers := List (String × JsVal)

/-- The property read `answers[id]`. -/
def Answers.get (answers : Answers) (id : String) : JsVal :=
  match answers.lookup id with
  | some v => v
  | none => JsVal.undefined

/-! ## Questionnaire -/

/-- An option of a choice question: its value and its optional score map
(dimension name to weight). -/
structure Opt where
  value : JsVal
  score : Option (List (String × Int)) := none

/-- The property `attentionCheck` of a question: absent (or another falsy
value), a string, or an object read through its property `expected`
(`undefined` when the object has none; a truthy value that is neither a string
nor an object, such as `true`, reads the same way). -/
inductive AttentionMark where
  | absent
  | text (s : String)
  | object (expected : JsVal)

/-- A question of the questionnaire. -/
structure Question where
  id : String
  type : String := ""
  options : Option (List Opt) := none
  showIf : Option (List (String × JsVal)) := none
  required : Bool := false
  attentionCheck : AttentionMark := AttentionMark.absent

/-- A section: an ordered list of questions. -/
structure Section where
  questions : List Question

/-- The questionnaire document: an ordered list of sections. -/
structure Questionnaire where
  sections : List Section
  totalQuestions : Int := 0
  version : Option String := none

/-! ## Scoring configuration -/

/-- The bounds of one dimension-threshold entry. -/
structure Threshold where
  min : Option Int := none
  max : Option Int := none

/-- A condition set: an optional `OR` list of condition sets, the `default`
marker, and the remaining entries (dimension name to bounds) in enumeration
order. -/
inductive Conditions where
  | mk (OR : Option (List Conditions)) (default : Bool)
      (entries : List (String × Threshold))

/-- One path of `recommendations.thresholds`. -/
structure PathRule where
  conditions : Option Conditions

/-- A modifier of `recommendations.modifiers`. -/
structure Modifier where
  condition : Conditions
  emphasis : String

/-- A driver template of `drivers.driverTemplates`. -/
structure Driver where
  condition : Conditions

/-- The parts of the scoring configuration the engine reads. -/
structure ScoringConfig where
  dimensions : List String
  thresholdA : PathRule
  thresholdB : PathRule
  modifiers : List Modifier
  driverTemplates : List (String × Driver)
  maxDrivers : Nat

/-! ## Scoring engine -/

/-- The running accumulator of one dimension. -/
structure DimAcc where
  total : Int
  count : Nat
  average : Int
deriving DecidableEq, Repr

/-- The running scores object. -/
abbrev Running := List (String × DimAcc)

/-- Final scores: dimension name to number. -/
abbrev Scores := List (String × Int)

/-- The function `initializeScores`: every configured dimension at zero. -/
def initializeScores (config : ScoringConfig) : Running :=
  config.dimensions.map (fun dimension => (dimension, { total := 0, count := 0, average := 0 }))

/-- One step of the loop of `addScores`: when `scores[dimension]` exists, its
total grows by `value` and its count by one. -/
def addScore (scores : Running) (entry : String × Int) : Running :=
  scores.map (fun e =>
    if e.1 = entry.1 then
      (e.1, { e.2 with total := e.2.total + entry.2, count := e.2.count + 1 })
    else e)

/-- The function `addScores`: the loop over the entries of a score map. -/
def addScores (scores : Running) (scoreValues : List (String × Int)) : Running :=
  scoreValues.foldl addScore scores

/-- The lookup `question.options.find (opt => opt.value === v)` followed by the
guarded call `if (selectedOption && selectedOption.score) addScores (...)`. -/
def addSelected (options : List Opt) (scores : Running) (v : JsVal) : Running :=
  match options.find? (fun opt => opt.value.strictEq v) with
  | some selectedOption =>
    match selectedOption.score with
    | some scoreValues => addScores scores scoreValues
    | none => scores
  | none => scores

/-- The body of the inner loop of `calculateScores` for one question. -/
def scoreQuestion (answers : Answers) (scores : Running) (question : Question) : Running :=
  let answer := answers.get question.id
  if !answer.truthy then scores
  else if question.type = "single" && question.options.isSome then
    addSelected (question.options.getD []) scores answer
  else if question.type = "multi" && question.options.isSome && answer.isArray then
    answer.elems.foldl (addSelected (question.options.getD [])) scores
  else scores

/-- The function `Math.round (total / count)` for a positive count. -/
def roundDiv (total : Int) (count : Nat) : Int :=
  (2 * total + count) / (2 * count)

/-- The final score of one dimension: the rounded average, or 50 without
data, clamped by `Math.max (0, Math.min (100, x))`. -/
def finalize (data : DimAcc) : Int :=
  let raw := if data.count > 0 then roundDiv data.total data.count else 50
  max 0 (min 100 raw)

/-- The function `calculateScores`. -/
def calculateScores (config : ScoringConfig) (answers : Answers)
    (questionnaire : Questionnaire) : Scores :=
  let scores := questionnaire.sections.foldl
    (fun sc section_ => section_.questions.foldl (scoreQuestion answers) sc)
    (initializeScores config)
  scores.map (fun e => (e.1, finalize e.2))

/-- The threshold loop of `checkConditions`: an entry whose dimension has no
score is skipped, a violated bound returns false. -/
def checkThresholds (scores : Scores) : List (String × Threshold) → Bool
  | [] => true
  | (dimension, thresholds) :: rest =>
    match scores.lookup dimension with
    | none => checkThresholds scores rest
    | some score =>
      if (match thresholds.min with
          | some m => decide (score < m)
          | none => false) then false
      else if (match thresholds.max with
          | some m => decide (score > m)
          | none => false) then false
      else checkThresholds scores rest

mutual
/-- The function `checkConditions`. -/
def checkConditions (scores : Scores) : Conditions → Bool
  | .mk (some members) _ _ => someMember scores members
  | .mk none true _ => true
  | .mk none false entries => checkThresholds scores entries
/-- The call `conditions.OR.some (cond => checkConditions (scores, cond))`. -/
def someMember (scores : Scores) : List Conditions → Bool
  | [] => false
  | cond :: rest => checkConditions scores cond || someMember scores rest
end

/-- The function `determineRecommendation`. -/
def determineRecommendation (config : ScoringConfig) (scores : Scores) : String :=
  let meetsA :=
    match config.thresholdA.conditions with
    | some conditions => checkConditions scores conditions
    | none => false
  if meetsA then "A"
  else
    let meetsB :=
      match config.thresholdB.conditions with
      | some conditions => checkConditions scores conditions
      | none => false
    if meetsB then "B" else "C"

/-- The function `getModifiers`: the loop pushes every modifier whose
condition holds. -/
def getModifiers (config : ScoringConfig) (scores : Scores) : List Modifier :=
  config.modifiers.foldl
    (fun applicable modifier =>
      if checkConditions scores modifier.condition then applicable ++ [modifier]
      else applicable)
    []

/-- The function `getDrivers`: the loop pushes every matching key, then
`applicable.slice (0, maxDrivers)`. -/
def getDrivers (config : ScoringConfig) (scores : Scores) : List String :=
  let applicable := config.driverTemplates.foldl
    (fun applicable kd =>
      if checkConditions scores kd.2.condition then applicable ++ [kd.1]
      else applicable)
    []
  applicable.take config.maxDrivers

/-! ## Branching engine -/

/-- The loop of `shouldShowQuestion` over the entries of `showIf`. -/
def showIfLoop (answers : Answers) : List (String × JsVal) → Bool
  | [] => true
  | (questionId, allowedValues) :: rest =>
    let currentAnswer := answers.get questionId
    if !currentAnswer.truthy then false
    else
      match allowedValues with
      | .arr vs =>
        if !includes vs currentAnswer then false else showIfLoop answers rest
      | _ =>
        if !currentAnswer.strictEq allowedValues then false
        else showIfLoop answers rest

/-- The function `shouldShowQuestion`. -/
def shouldShowQuestion (question : Question) (answers : Answers) : Bool :=
  match question.showIf with
  | none => true
  | some showIf => showIfLoop answers showIf

/-- The function `getVisibleQuestions`: the filter of the questions of a
section by `shouldShowQuestion`. -/
def getVisibleQuestions (section_ : Section) (answers : Answers) : List Question :=
  section_.questions.filter (fun q => shouldShowQuestion q answers)

/-- The function `getFlatVisibleQuestions`: for every section, every visible
question is pushed together with the section. -/
def getFlatVisibleQuestions (sections : List Section) (answers : Answers) :
    List (Section × Question) :=
  sections.foldl
    (fun result section_ =>
      (getVisibleQuestions section_ answers).foldl
        (fun result question => result ++ [(section_, question)]) result)
    []

/-- The characters removed by `String.prototype.trim`: the white space and
line terminator code points of ECMAScript. -/
def isTrimmed (c : Char) : Bool :=
  let n := c.toNat
  n = 0x09 || n = 0x0A || n = 0x0B || n = 0x0C || n = 0x0D || n = 0x20 || n = 0xA0
    || n = 0x1680 || (0x2000 ≤ n && n ≤ 0x200A) || n = 0x2028 || n = 0x2029
    || n = 0x202F || n = 0x205F || n = 0x3000 || n = 0xFEFF

/-- The method `s.trim ()`: the string without its leading and trailing white
space. -/
def jsTrim (s : String) : String :=
  String.mk ((s.data.dropWhile isTrimmed).reverse.dropWhile isTrimmed).reverse

/-- The function `isQuestionAnswered`. The result `none` is the `TypeError` of
`answer.trim ()` on an answer that is not a string. -/
def isQuestionAnswered (question : Question) (answers : Answers) : Option Bool :=
  if !question.required then some true
  else
    let answer := answers.get question.id
    match answer with
    | .undefined => some false
    | .null => some false
    | _ =>
      if question.type = "multi" && answer.isArray then
        some (decide (answer.elems.length > 0))
      else if question.type = "text" || question.type = "textarea" then
        match answer with
        | .str s => some (decide ((jsTrim s).length > 0))
        | _ => none
      else if question.type = "consent" then some (answer.strictEq (JsVal.bool true))
      else some true

/-! ## Quality engine -/

/-- The risk levels. -/
inductive Risk where
  | low
  | medium
  | high
deriving DecidableEq, Repr

/-- The table `riskOrder`. -/
def riskOrder : Risk → Nat
  | .low => 0
  | .medium => 1
  | .high => 2

/-- The closure `bumpRisk`: the new value of `risk` after `bumpRisk (level)`. -/
def bumpRisk (risk level : Risk) : Risk :=
  if riskOrder level > riskOrder risk then level else risk

/-- The closure `addReason`: the new value of `reasons` after
`addReason (reason)`. -/
def addReason (reasons : List String) (reason : String) : List String :=
  if !reasons.contains reason then reasons ++ [reason] else reasons

/-- The helper `getConstraintFlags` of the quality engine. -/
def QualityEngine.getConstraintFlags (answers : Answers) : List String :=
  let flags : List String := []
  let flags :=
    if (answers.get "transportAccess").strictEq (.str "difficult")
        || (answers.get "transportAccess").strictEq (.str "veryDifficult") then
      flags ++ ["transport"]
    else flags
  let flags :=
    if (answers.get "financialSituation").strictEq (.str "difficult") then
      flags ++ ["financial"]
    else flags
  flags

/-- The function `checkContradictions`. -/
def checkContradictions (answers : Answers) : List String :=
  let found : List String := []
  let found :=
    if (answers.get "attendance").strictEq (.str "always")
        && (answers.get "schoolBlockers").isArray
        && includes (answers.get "schoolBlockers").elems (.str "attendance") then
      found ++ ["attendance_mismatch"]
    else found
  let found :=
    if (answers.get "marksRange").strictEq (.str "above70")
        && (answers.get "schoolBlockers").isArray
        && includes (answers.get "schoolBlockers").elems (.str "understanding") then
      found ++ ["performance_mismatch"]
    else found
  let found :=
    if (answers.get "financialSituation").strictEq (.str "okay")
        && (QualityEngine.getConstraintFlags answers).contains "financial" then
      if (answers.get "schoolBlockers").isArray
          && includes (answers.get "schoolBlockers").elems (.str "noResources") then
        found ++ ["financial_mismatch"]
      else found
    else found
  found

/-- The function `isAttentionCheck`: `Boolean (question.attentionCheck)`. -/
def isAttentionCheck (question : Question) : Bool :=
  match question.attentionCheck with
  | .absent => false
  | .text s => s != ""
  | .object _ => true

/-- The method `options.findIndex (p)`, `none` standing for `-1`. -/
def findIndex {α : Type} (p : α → Bool) : List α → Option Nat
  | [] => none
  | x :: xs => if p x then some 0 else (findIndex p xs).map (fun i => i + 1)

/-- The update `positionCounts[index]++`. -/
def increment : Nat → List Nat → List Nat
  | _, [] => []
  | 0, c :: cs => (c + 1) :: cs
  | i + 1, c :: cs => c :: increment i cs

/-! ### Numbers of type double

The straight-lining check computes in binary64 arithmetic: a quotient, a
decimal literal and a product, each rounded to 53 significant bits with ties
to the even significand, then a comparison and `Math.round`. The values met
there are not negative and far from the ends of the exponent range, and the
divisor is not zero. -/

/-- The loop of `bitLength`: one step for each binary digit. -/
def bitLengthLoop : Nat → Nat → Nat
  | 0, _ => 0
  | fuel + 1, n => if n = 0 then 0 else bitLengthLoop fuel (n / 2) + 1

/-- The number of binary digits of `n`. -/
def bitLength (n : Nat) : Nat := bitLengthLoop n n

/-- The integer nearest to the quotient `n / d`, a tie going to the even one. -/
def roundHalfEven (n d : Nat) : Nat :=
  let q := n / d
  let r := n % d
  if 2 * r < d then q
  else if 2 * r > d then q + 1
  else if q % 2 = 0 then q else q + 1

/-- The binary exponent of the positive quotient `n / d`: the `e` with
`2 ^ e ≤ n / d < 2 ^ (e + 1)`. -/
def binade (n d : Nat) : Int :=
  let a := bitLength n - 1
  let b := bitLength d - 1
  if n * 2 ^ b ≥ d * 2 ^ a then (a : Int) - b else (a : Int) - b - 1

/-- A finite double that is not negative: the value `num / den`, where `den`
is a power of two. -/
structure Double where
  num : Nat
  den : Nat
deriving DecidableEq, Repr

/-- The double nearest to the quotient `n / d` of a natural number by a
positive one: the quotient is scaled to have its leading digit at bit 52,
rounded to an integer, and scaled back. A decimal literal such as `0.8` is
the double nearest to `8 / 10`. -/
def toDouble (n d : Nat) : Double :=
  if n = 0 then ⟨0, 1⟩
  else
    let e := binade n d
    if e ≤ 52 then
      let s := (52 - e).toNat
      ⟨roundHalfEven (n * 2 ^ s) d, 2 ^ s⟩
    else
      let s := (e - 52).toNat
      ⟨roundHalfEven n (d * 2 ^ s) * 2 ^ s, 1⟩

/-- The double of a natural number: the number itself below `2 ^ 53`. -/
def Double.ofNat (n : Nat) : Double := if n < 2 ^ 53 then ⟨n, 1⟩ else toDouble n 1

/-- The operator `/` on doubles, for a divisor that is not zero. -/
def Double.div (x y : Double) : Double := toDouble (x.num * y.den) (x.den * y.num)

/-- The operator `*` on doubles. -/
def Double.mul (x y : Double) : Double := toDouble (x.num * y.num) (x.den * y.den)

/-- The operator `>` on doubles. -/
def Double.gt (x y : Double) : Bool := decide (x.num * y.den > y.num * x.den)

/-- The function `Math.round` on a double that is not negative: the floor of
`x + 0.5`, exactly. -/
def mathRound (x : Double) : Int :=
  ((2 * x.num + x.den : Nat) : Int) / ((2 * x.den : Nat) : Int)

/-- The variables of the loop of `checkStraightLining`. -/
structure LiningState where
  totalSingleChoice : Nat
  positionCounts : List Nat
  maxPosition : Nat
deriving DecidableEq, Repr

/-- The body of the inner loop of `checkStraightLining` for one question. -/
def liningStep (answers : Answers) (st : LiningState) (question : Question) : LiningState :=
  if question.type = "single" && question.options.isSome && !isAttentionCheck question then
    let answer := answers.get question.id
    if !answer.truthy then st
    else
      match findIndex (fun opt => opt.value.strictEq answer) (question.options.getD []) with
      | some index =>
        if index ≤ 4 then
          { totalSingleChoice := st.totalSingleChoice + 1
            positionCounts := increment index st.positionCounts
            maxPosition := if index > st.maxPosition then index else st.maxPosition }
        else st
      | none => st
  else st

/-- The result of `checkStraightLining`. -/
structure StraightLining where
  isSuspicious : Bool
  score : Int
  dominant_position : Option Nat
deriving DecidableEq, Repr

/-- The function `checkStraightLining`. The quotient `ratio`, the literal
`0.8` and the product `ratio * 100` are doubles. -/
def checkStraightLining (answers : Answers) (questionnaire : Questionnaire) : StraightLining :=
  let st := questionnaire.sections.foldl
    (fun st section_ => section_.questions.foldl (liningStep answers) st)
    { totalSingleChoice := 0, positionCounts := [0, 0, 0, 0, 0], maxPosition := 0 }
  if st.totalSingleChoice < 5 then
    { isSuspicious := false, score := 0, dominant_position := none }
  else
    let maxFreq : Nat := st.positionCounts.foldl max 0
    let ratio := Double.div (Double.ofNat maxFreq) (Double.ofNat st.totalSingleChoice)
    { isSuspicious := Double.gt ratio (toDouble 8 10)
      score := mathRound (Double.mul ratio (Double.ofNat 100))
      dominant_position := findIndex (fun c => c == maxFreq) st.positionCounts }

/-- An entry of the list `checks` of `checkAttention`. -/
structure AttentionItem where
  id : String
  expected : JsVal
  required : Bool

/-- The body of the first loop of `checkAttention` for one question. -/
def gatherCheck (checks : List AttentionItem) (question : Question) : List AttentionItem :=
  if !isAttentionCheck question then checks
  else
    match question.attentionCheck with
    | .text s => checks ++ [{ id := question.id, expected := .str s, required := question.required }]
    | .object expected =>
      if expected.truthy then
        checks ++ [{ id := question.id, expected := expected, required := question.required }]
      else checks
    | .absent => checks

/-- The counters of the second loop of `checkAttention`. -/
structure AttentionState where
  answered : Nat
  failed : Nat
  requiredMissing : Bool
deriving DecidableEq, Repr

/-- The test `answer === undefined || answer === null || answer === ''`. -/
def isBlank : JsVal → Bool
  | .undefined => true
  | .null => true
  | .str s => s == ""
  | _ => false

/-- The body of the second loop of `checkAttention` for one check. -/
def attentionStep (answers : Answers) (st : AttentionState) (check : AttentionItem) :
    AttentionState :=
  let answer := answers.get check.id
  if isBlank answer then
    if check.required then { st with requiredMissing := true } else st
  else
    { st with
      answered := st.answered + 1
      failed := if !answer.strictEq check.expected then st.failed + 1 else st.failed }

/-- The function `checkAttention`; the result is the property `passed`, `none`
standing for `null`. -/
def checkAttention (answers : Answers) (questionnaire : Questionnaire) : Option Bool :=
  let checks := questionnaire.sections.foldl
    (fun checks section_ => section_.questions.foldl gatherCheck checks) []
  if checks.length = 0 then none
  else
    let st := checks.foldl (attentionStep answers)
      { answered := 0, failed := 0, requiredMissing := false }
    if st.requiredMissing then some false
    else if st.answered = 0 then none
    else some (decide (st.failed = 0))

/-- The result of `checkPerfectProfile`. -/
structure PerfectProfile where
  isPerfect : Bool
  scores : Scores

/-- The function `checkPerfectProfile`. -/
def checkPerfectProfile (config : ScoringConfig) (answers : Answers)
    (questionnaire : Questionnaire) : PerfectProfile :=
  let scores := calculateScores config answers questionnaire
  { isPerfect := scores.lookup "academicReadiness" == some 100
      && scores.lookup "supportNeed" == some 0
    scores := scores }

/-- The result of `checkSpeeding`. -/
structure Speeding where
  isSpeeding : Bool
  threshold : Option Int
deriving DecidableEq, Repr

/-- The function `checkSpeeding`; the duration `none` is `null`. The guard
`!durationSeconds` holds for `null` and for `0`. -/
def checkSpeeding (durationSeconds : Option Int) (totalQuestions : Int) : Speeding :=
  match durationSeconds with
  | none => { isSpeeding := false, threshold := none }
  | some seconds =>
    if seconds = 0 then { isSpeeding := false, threshold := none }
    else
      let threshold := totalQuestions * 3
      { isSpeeding := decide (seconds < threshold), threshold := some threshold }

/-- The submission metadata read by the quality engine. -/
structure Metadata where
  completion_duration_seconds : Option Int
  device_locale : String := "unknown"

/-- The object `metrics` of an assessment. -/
structure Metrics where
  completion_seconds : Option Int
  attention_passed : Option Bool
  contradiction_count : Nat
  straightline_score : Int
deriving DecidableEq, Repr

/-- The result of `assessDataQuality`. -/
structure DataQuality where
  risk : Risk
  reasons : List String
  metrics : Metrics
deriving DecidableEq, Repr

/-- The five guarded updates of `risk` and `reasons` in `assessDataQuality`,
from the results of the checks. -/
def verdict (isSpeeding : Bool) (attentionPassed : Option Bool) (contradictionCount : Nat)
    (isSuspicious : Bool) (isPerfect : Bool) : Risk × List String :=
  let st : Risk × List String := (Risk.low, [])
  let st := if isSpeeding then (bumpRisk st.1 .high, addReason st.2 "speeding") else st
  let st :=
    if attentionPassed == some false then
      (bumpRisk st.1 .high, addReason st.2 "attention_check_failed")
    else st
  let st :=
    if contradictionCount > 0 then
      (bumpRisk st.1 (if contradictionCount ≥ 2 then .high else .medium),
        addReason st.2 "contradictions")
    else st
  let st :=
    if isSuspicious then
      (bumpRisk st.1 (if isSpeeding then .high else .medium), addReason st.2 "straight_lining")
    else st
  let st :=
    if isPerfect then (bumpRisk st.1 .medium, addReason st.2 "perfect_profile") else st
  st

/-- The function `assessDataQuality`. -/
def assessDataQuality (config : ScoringConfig) (answers : Answers)
    (questionnaire : Questionnaire) (metadata : Metadata) : DataQuality :=
  let contradictions := checkContradictions answers
  let straightLining := checkStraightLining answers questionnaire
  let perfectProfile := checkPerfectProfile config answers questionnaire
  let speeding := checkSpeeding metadata.completion_duration_seconds questionnaire.totalQuestions
  let attention := checkAttention answers questionnaire
  let metrics : Metrics :=
    { completion_seconds := metadata.completion_duration_seconds
      attention_passed := attention
      contradiction_count := contradictions.length
      straightline_score := straightLining.score }
  let st := verdict speeding.isSpeeding attention contradictions.length
    straightLining.isSuspicious perfectProfile.isPerfect
  { risk := st.1, reasons := st.2, metrics := metrics }

/-! ## Submission utilities -/

/-- The value is `undefined` or `null`. -/
def JsVal.isNullish : JsVal → Bool
  | .undefined => true
  | .null => true
  | _ => false

mutual
/-- The string a value turns into when it is used as a property key. -/
def JsVal.toKey : JsVal → String
  | .undefined => "undefined"
  | .null => "null"
  | .bool b => if b then "true" else "false"
  | .num n => toString n
  | .str s => s
  | .arr xs => JsVal.joinKeys xs
/-- The method `xs.join ()` behind the string of an array: `undefined` and
`null` elements are empty, the separator is a comma. -/
def JsVal.joinKeys : List JsVal → String
  | [] => ""
  | x :: rest =>
    (if x.isNullish then "" else x.toKey)
      ++ (if rest.isEmpty then "" else "," ++ JsVal.joinKeys rest)
end

/-- The function `getAttendanceBand`: `mapping[attendance] || 'unknown'`. -/
def getAttendanceBand (attendance : JsVal) : String :=
  let mapping : List (String × String) :=
    [("always", "high"), ("often", "high"), ("sometimes", "medium"), ("rarely", "low"),
     ("notInSchool", "low")]
  match mapping.lookup attendance.toKey with
  | some band => band
  | none => "unknown"

/-- The function `getPracticalPreferenceBand`. -/
def getPracticalPreferenceBand (practicalScore : Int) : String :=
  if practicalScore ≥ 60 then "high"
  else if practicalScore ≥ 40 then "medium"
  else "low"

/-- The helper `getConstraintFlags` of the payload assembler. -/
def SubmissionUtils.getConstraintFlags (answers : Answers) : List String :=
  let flags : List String := []
  let flags :=
    if (answers.get "transportAccess").strictEq (.str "difficult")
        || (answers.get "transportAccess").strictEq (.str "veryDifficult") then
      flags ++ ["transport"]
    else flags
  let flags :=
    if (answers.get "financialSituation").strictEq (.str "difficult") then
      flags ++ ["financial"]
    else flags
  let flags :=
    if (answers.get "homeResponsibilities").strictEq (.str "many")
        || (answers.get "homeResponsibilities").strictEq (.str "caring") then
      flags ++ ["home_responsibilities"]
    else flags
  let flags :=
    if (answers.get "deviceAccess").strictEq (.str "no") then flags ++ ["no_device"]
    else flags
  let flags :=
    if (answers.get "safety").strictEq (.str "no") then flags ++ ["safety_concern"]
    else flags
  flags

/-- The assignment `obj[key] = value`: the value of an existing key is
replaced in place, a new key is added at the end. -/
def setProp : Answers → String → JsVal → Answers
  | [], key, value => [(key, value)]
  | e :: rest, key, value =>
    if e.1 = key then (key, value) :: rest else e :: setProp rest key value

/-- The statement `delete obj[key]`. -/
def deleteProp (obj : Answers) (key : String) : Answers :=
  obj.filter (fun e => e.1 != key)

/-- The body of the inner loop of `extractFreeTextFields` for one question. -/
def extractStep (answers : Answers) (freeText : Answers) (question : Question) : Answers :=
  if question.type = "text" && (answers.get question.id).truthy then
    setProp freeText question.id (answers.get question.id)
  else freeText

/-- The function `extractFreeTextFields`. -/
def extractFreeTextFields (answers : Answers) (questionnaire : Questionnaire) : Answers :=
  questionnaire.sections.foldl
    (fun freeText section_ => section_.questions.foldl (extractStep answers) freeText) []

/-- What one call of `generateSubmissionPayload` reads from outside its
arguments: the identifier of `generateUUID ()`, the timestamp of
`new Date ().toISOString ()`, the clock reading `new Date ().getTime ()` in
milliseconds, and `navigator.language`. -/
structure Draws where
  submissionId : String
  createdAt : String
  endTime : Int
  language : String

/-- The object `derived_fields` of a payload. -/
structure DerivedFields where
  attendance_band : String
  practical_preference_band : String
  constraint_flags : List String
deriving DecidableEq, Repr

/-- The submission payload. The property `free_text_fields` is `none` when it
is `undefined`. -/
structure Payload where
  submission_id : String
  created_at : String
  questionnaire_version : String
  language_used : String
  answers : Answers
  free_text_fields : Option Answers
  derived_fields : DerivedFields
  data_quality : DataQuality
  metadata : Metadata

/-- The function `generateSubmissionPayload`. The argument `startedAt` is the
time value in milliseconds of the start timestamp, `none` when the timestamp
is absent. -/
def generateSubmissionPayload (config : ScoringConfig) (answers : Answers)
    (questionnaire : Questionnaire) (language : String) (startedAt : Option Int)
    (draws : Draws) : Payload :=
  let submissionId := draws.submissionId
  let createdAt := draws.createdAt
  let scores := calculateScores config answers questionnaire
  let freeTextFields := extractFreeTextFields answers questionnaire
  let answersWithoutFreeText := (freeTextFields.map Prod.fst).foldl deleteProp answers
  let answersWithoutFreeText := deleteProp answersWithoutFreeText "consent_agree"
  let completionDurationSeconds : Option Int :=
    match startedAt with
    | some startTime => some (roundDiv (draws.endTime - startTime) 1000)
    | none => none
  let metadata : Metadata :=
    { completion_duration_seconds := completionDurationSeconds
      device_locale := if draws.language != "" then draws.language else "unknown" }
  let dataQuality := assessDataQuality config answers questionnaire metadata
  { submission_id := submissionId
    created_at := createdAt
    questionnaire_version :=
      match questionnaire.version with
      | some v => if v != "" then v else "1.0.0"
      | none => "1.0.0"
    language_used := language
    answers := answersWithoutFreeText
    free_text_fields :=
      if (freeTextFields.map Prod.fst).length > 0 then some freeTextFields else none
    derived_fields :=
      { attendance_band := getAttendanceBand (answers.get "attendance")
        practical_preference_band :=
          getPracticalPreferenceBand
            (match scores.lookup "practicalPreference" with
              | some score => if score != 0 then score else 50
              | none => 50)
        constraint_flags := SubmissionUtils.getConstraintFlags answers }
    data_quality := dataQuality
    metadata := metadata }

/-- An item of the submission queue: the payload, of which the queue reads
the submission id (the other fields are `body`), with the queue metadata
`queued_at` and `retry_count`. -/
structure QueueItem where
  submission_id : String
  queued_at : String
  retry_count : Int
  body : String
deriving DecidableEq, Repr

/-- The function `removeFromQueue` on the stored queue. -/
def removeFromQueue (storage : List QueueItem) (submissionId : String) : List QueueItem :=
  storage.filter (fun item => item.submission_id != submissionId)

/-- The variables of `retryQueuedSubmissions`: the stored queue and the two
counters. -/
structure RetryState where
  storage : List QueueItem
  succeeded : Nat
  failed : Nat
deriving DecidableEq, Repr

/-- The body of the loop of `retryQueuedSubmissions` for one item; `deliver`
is `result.success` of `submitPayload` for the item. -/
def retryStep (deliver : QueueItem → Bool) (st : RetryState) (item : QueueItem) : RetryState :=
  if deliver item then
    { storage := removeFromQueue st.storage item.submission_id
      succeeded := st.succeeded + 1
      failed := st.failed }
  else
    { storage := st.storage.map (fun q =>
        if q.submission_id = item.submission_id then
          { q with retry_count := (if q.retry_count != 0 then q.retry_count else 0) + 1 }
        else q)
      succeeded := st.succeeded
      failed := st.failed + 1 }

/-- The function `retryQueuedSubmissions` on the stored queue: the loop runs
over the queue read at the start. -/
def retryQueuedSubmissions (deliver : QueueItem → Bool) (storage : List QueueItem) :
    RetryState :=
  storage.foldl (retryStep deliver) { storage := storage, succeeded := 0, failed := 0 }

/-! ## Submit function -/

/-- The values of `JSON.parse`. -/
inductive Json where
  | null
  | bool (b : Bool)
  | num (n : Int)
  | str (s : String)
  | arr (xs : List Json)
  | obj (fields : List (String × Json))

/-- Truthiness of a parsed value. -/
def Json.truthy : Json → Bool
  | .null => false
  | .bool b => b
  | .num n => n != 0
  | .str s => s != ""
  | .arr _ => true
  | .obj _ => true

/-- The test `payload[field]` of the validation loop, as a truth value: the
read throws a `TypeError` (`none`) on `null`, finds the own property of an
object, and is `undefined` on every other value. -/
def Json.fieldTruthy (payload : Json) (field : String) : Option Bool :=
  match payload with
  | .null => none
  | .obj fields =>
    match fields.lookup field with
    | some v => some v.truthy
    | none => some false
  | _ => some false

/-- The request: its method and the result of `JSON.parse (event.body)`,
`none` when the parser throws. -/
structure HttpEvent where
  httpMethod : String
  body : Option Json

/-- What the call of the e-mail service does: it answers with `ok`, it
answers without `ok`, or it throws. -/
inductive Delivery where
  | accepted
  | refused
  | failed
deriving DecidableEq, Repr

/-- The result of the handler: a response with its status code, or an
exception thrown out of the handler; `emailCalled` tells whether the e-mail
service was called. -/
inductive Outcome where
  | response (statusCode : Nat) (emailCalled : Bool)
  | typeError
deriving DecidableEq, Repr

/-- The validation loop over the required fields; `none` lets the handler go
on. -/
def validateRequired (payload : Json) : List String → Option Outcome
  | [] => none
  | field :: rest =>
    match payload.fieldTruthy field with
    | none => some Outcome.typeError
    | some false => some (Outcome.response 400 false)
    | some true => validateRequired payload rest

/-- The call `payload.submission_id.slice (0, 8)` succeeds on a string and on
an array; another truthy value has no method `slice`. -/
def Json.canSlice (payload : Json) : Bool :=
  match payload with
  | .obj fields =>
    match fields.lookup "submission_id" with
    | some (.str _) => true
    | some (.arr _) => true
    | _ => false
  | _ => false

/-- The function `handler`; `apiKey` is the variable `RESEND_API_KEY` of the
environment. -/
def handler (event : HttpEvent) (apiKey : Option String) (delivery : Delivery) : Outcome :=
  if event.httpMethod != "POST" then Outcome.response 405 false
  else
    match event.body with
    | none => Outcome.response 400 false
    | some payload =>
      match validateRequired payload ["submission_id", "created_at", "answers"] with
      | some outcome => outcome
      | none =>
        if (match apiKey with
            | some key => key == ""
            | none => true) then Outcome.response 500 false
        else if !payload.canSlice then Outcome.typeError
        else
          match delivery with
          | .accepted => Outcome.response 200 true
          | .refused => Outcome.response 500 true
          | .failed => Outcome.response 500 true

/-! ## Academic calendar -/

/-- A local calendar date, the value of `new Date (year, month - 1, day)` for
a date of the calendar. -/
structure LocalDate where
  year : Int
  month : Nat
  day : Nat
deriving DecidableEq, Repr

/-- The comparison `a <= b` of two local dates: the order of their time
values, which for dates of the calendar is the order of year, month and
day. -/
def LocalDate.le (a b : LocalDate) : Bool :=
  decide (a.year < b.year)
    || (decide (a.year = b.year)
      && (decide (a.month < b.month) || (decide (a.month = b.month) && decide (a.day ≤ b.day))))

/-- A term of the calendar: its number and the dates parsed from `start` and
`end`. -/
structure SchoolTerm where
  term : Int
  start : LocalDate
  end_ : LocalDate
deriving DecidableEq, Repr

/-- The object `saCalendar.terms`: year to list of terms. -/
abbrev Calendar := List (Int × List SchoolTerm)

/-- The result of `getSaSchoolTermStatus`; the term `none` is `null`. -/
structure TermStatus where
  inTerm : Bool
  term : Option Int
  year : Int
deriving DecidableEq, Repr

/-- The loop of `getSaSchoolTermStatus` over the terms of the year. -/
def termLoop (localDate : LocalDate) (year : Int) : List SchoolTerm → TermStatus
  | [] => { inTerm := false, term := none, year := year }
  | term :: rest =>
    if term.start.le localDate && localDate.le term.end_ then
      { inTerm := true, term := some term.term, year := year }
    else termLoop localDate year rest

/-- The function `getSaSchoolTermStatus`, the calendar configuration being a
parameter. -/
def getSaSchoolTermStatus (calendar : Calendar) (date : LocalDate) : TermStatus :=
  let localDate := date
  let year := localDate.year
  match calendar.lookup year with
  | none => { inTerm := true, term := none, year := year }
  | some terms => termLoop localDate year terms

/-! ## The rules in the words of the specification -/

/-- The score map contributed by the pick of value `v` among `options`: the
score map of the matched option, once, when there is one. -/
def pickedMaps (options : List Opt) (v : JsVal) : List (List (String × Int)) :=
  match options.find? (fun opt => opt.value.strictEq v) with
  | some selectedOption => selectedOption.score.toList
  | none => []

/-- The picks of one question: nothing when it is unanswered, the matched
option once for a single-choice question, every selected option once each for
a multi-choice question. -/
def questionPicks (answers : Answers) (question : Question) : List (List (String × Int)) :=
  let answer := answers.get question.id
  match question.options with
  | none => []
  | some options =>
    if answer.truthy = false then []
    else if question.type = "single" then pickedMaps options answer
    else if question.type = "multi" then answer.elems.flatMap (pickedMaps options)
    else []

/-- The picks gathered over all questions in declared order. -/
def picks (answers : Answers) (questionnaire : Questionnaire) : List (List (String × Int)) :=
  (questionnaire.sections.flatMap (fun s => s.questions)).flatMap (questionPicks answers)

/-- The weights that a list of score entries holds for a dimension. -/
def weightsFor (dimension : String) (entries : List (String × Int)) : List Int :=
  (entries.filter (fun e => decide (e.1 = dimension))).map Prod.snd

/-- The picked weights of a dimension, over all picks. -/
def pickedWeights (answers : Answers) (questionnaire : Questionnaire)
    (dimension : String) : List Int :=
  weightsFor dimension (picks answers questionnaire).flatten

/-- Clamping to the interval from 0 to 100. -/
def clamp (x : Int) : Int := max 0 (min 100 x)

/-- A path's condition set matches: the path has conditions and
`checkConditions` accepts them. -/
def pathMatches (scores : Scores) (rule : PathRule) : Prop :=
  ∃ conditions, rule.conditions = some conditions ∧ checkConditions scores conditions = true

/-- A dimension-threshold entry passes: when its dimension has a score, the
score is at least `min` when `min` is given and at most `max` when `max` is
given. -/
def entryPasses (scores : Scores) (entry : String × Threshold) : Prop :=
  ∀ score, scores.lookup entry.1 = some score →
    (∀ m, entry.2.min = some m → m ≤ score) ∧ (∀ m, entry.2.max = some m → score ≤ m)

/-- A `showIf` entry passes: the gating answer is present (truthy) and is a
member of the allowed list, or equals the allowed scalar. -/
def showIfEntryPasses (answers : Answers) (entry : String × JsVal) : Prop :=
  (answers.get entry.1).truthy = true
    ∧ (∀ vs, entry.2 = JsVal.arr vs → ∃ v ∈ vs, v.strictEq (answers.get entry.1) = true)
    ∧ (entry.2.isArray = false → answers.get entry.1 = entry.2)

/-- The answer is a non-empty selection list. -/
def isNonEmptySelection (answer : JsVal) : Prop :=
  ∃ xs, answer = JsVal.arr xs ∧ xs ≠ []

/-- The string holds at least one character that is not white space. -/
def hasVisibleChar (s : String) : Prop :=
  ∃ c ∈ s.data, isTrimmed c = false

/-- The levels raised by the five checks of `assessDataQuality`: speeding, a
false attention pass-state, contradictions, straight-lining and a perfect
profile, in this order. -/
def raisedLevels (isSpeeding : Bool) (attentionPassed : Option Bool)
    (contradictionCount : Nat) (isSuspicious : Bool) (isPerfect : Bool) : List Risk :=
  [ if isSpeeding = true then Risk.high else Risk.low,
    if attentionPassed = some false then Risk.high else Risk.low,
    if 2 ≤ contradictionCount then Risk.high
      else if contradictionCount = 1 then Risk.medium else Risk.low,
    if isSuspicious = true then (if isSpeeding = true then Risk.high else Risk.medium)
      else Risk.low,
    if isPerfect = true then Risk.medium else Risk.low ]

/-- The levels raised by the checks on an input of `assessDataQuality`. -/
def levelsOf (config : ScoringConfig) (answers : Answers) (questionnaire : Questionnaire)
    (metadata : Metadata) : List Risk :=
  raisedLevels
    (checkSpeeding metadata.completion_duration_seconds questionnaire.totalQuestions).isSpeeding
    (checkAttention answers questionnaire)
    (checkContradictions answers).length
    (checkStraightLining answers questionnaire).isSuspicious
    (checkPerfectProfile config answers questionnaire).isPerfect

/-- The greatest rank of a list of levels, 0 (the rank of low) for none. -/
def maxRank (levels : List Risk) : Nat :=
  (levels.map riskOrder).foldl max 0

/-- The attention check of a question, when it is flagged with an expected
literal answer. -/
def attentionItem (question : Question) : Option AttentionItem :=
  match question.attentionCheck with
  | .absent => none
  | .text s =>
    if s = "" then none
    else some { id := question.id, expected := .str s, required := question.required }
  | .object expected =>
    if expected.truthy = true then
      some { id := question.id, expected := expected, required := question.required }
    else none

/-- The attention checks of a questionnaire, in declared order. -/
def attentionChecks (questionnaire : Questionnaire) : List AttentionItem :=
  (questionnaire.sections.flatMap (fun s => s.questions)).flatMap
    (fun q => (attentionItem q).toList)

/-- The ordinal position tallied for a question: the question is
single-choice, is no attention check and is answered, and the chosen option is
at one of the positions 0 to 4. -/
def talliedPosition (answers : Answers) (question : Question) : Option Nat :=
  if question.type = "single" ∧ question.options.isSome = true
      ∧ isAttentionCheck question = false
      ∧ (answers.get question.id).truthy = true then
    match findIndex (fun opt => opt.value.strictEq (answers.get question.id))
        (question.options.getD []) with
    | some index => if index ≤ 4 then some index else none
    | none => none
  else none

/-- The positions of the tallied answers of a questionnaire. -/
def talliedPositions (answers : Answers) (questionnaire : Questionnaire) : List Nat :=
  (questionnaire.sections.flatMap (fun s => s.questions)).flatMap
    (fun q => (talliedPosition answers q).toList)

/-- The number of tallied answers at each of the positions 0 to 4. -/
def countsOf (positions : List Nat) : List Nat :=
  [positions.count 0, positions.count 1, positions.count 2, positions.count 3,
    positions.count 4]

/-- The count of the dominant position. -/
def dominantCount (positions : List Nat) : Nat :=
  (countsOf positions).foldl max 0

/-- The reason codes in the order of the checks of `assessDataQuality`. -/
def reasonOrder : List String :=
  ["speeding", "attention_check_failed", "contradictions", "straight_lining",
   "perfect_profile"]

/-- The codes of the checks that flagged, in the order of the checks. -/
def flaggedCodes (isSpeeding : Bool) (attentionPassed : Option Bool)
    (contradictionCount : Nat) (isSuspicious : Bool) (isPerfect : Bool) : List String :=
  (if isSpeeding = true then ["speeding"] else [])
    ++ (if attentionPassed = some false then ["attention_check_failed"] else [])
    ++ (if contradictionCount > 0 then ["contradictions"] else [])
    ++ (if isSuspicious = true then ["straight_lining"] else [])
    ++ (if isPerfect = true then ["perfect_profile"] else [])

/-- The codes of the checks that flagged on an input of `assessDataQuality`. -/
def codesOf (config : ScoringConfig) (answers : Answers) (questionnaire : Questionnaire)
    (metadata : Metadata) : List String :=
  flaggedCodes
    (checkSpeeding metadata.completion_duration_seconds questionnaire.totalQuestions).isSpeeding
    (checkAttention answers questionnaire)
    (checkContradictions answers).length
    (checkStraightLining answers questionnaire).isSuspicious
    (checkPerfectProfile config answers questionnaire).isPerfect

/-- The constraint flags in their fixed order. -/
def flagOrder : List String :=
  ["transport", "financial", "home_responsibilities", "no_device", "safety_concern"]

/-- A free-text question with an answer: a question of the questionnaire of
type `text` whose answer is present (truthy). -/
def isAnsweredText (answers : Answers) (questionnaire : Questionnaire)
    (question : Question) : Prop :=
  question ∈ questionnaire.sections.flatMap (fun s => s.questions)
    ∧ question.type = "text" ∧ (answers.get question.id).truthy = true

/-- The item with its retry count increased by one. -/
def bumpRetry (item : QueueItem) : QueueItem :=
  { item with retry_count := item.retry_count + 1 }

/-- What the retry loop does to one stored item when it processes `item`. -/
def stepItem (deliver : QueueItem → Bool) (item : QueueItem) (q : QueueItem) :
    Option QueueItem :=
  if q.submission_id = item.submission_id then
    if deliver item then none else some (bumpRetry q)
  else some q

/-- What the retry loop does to one stored item over a list of processed
items. -/
def trackItem (deliver : QueueItem → Bool) (items : List QueueItem) (q : Option QueueItem) :
    Option QueueItem :=
  items.foldl (fun oq item => oq.bind (stepItem deliver item)) q

/-- The payload has no own property `field` (it is not an object, or it is an
object without that key). -/
def Json.lacks (payload : Json) (field : String) : Prop :=
  match payload with
  | .obj fields => fields.lookup field = none
  | _ => True

/-- The inclusive range of the term contains the date. -/
def SchoolTerm.contains (term : SchoolTerm) (date : LocalDate) : Bool :=
  term.start.le date && date.le term.end_

/-! ## Sample inputs -/

/-- A configuration with three dimensions; path A asks for an academic
readiness of at least 55, path B for a practical preference of at least 60. -/
def sampleConfig : ScoringConfig :=
  { dimensions := ["academicReadiness", "practicalPreference", "supportNeed"]
    thresholdA := ⟨some (.mk none false [("academicReadiness", { min := some 55 })])⟩
    thresholdB := ⟨some (.mk none false [("practicalPreference", { min := some 60 })])⟩
    modifiers := []
    driverTemplates := []
    maxDrivers := 3 }

/-- The gated question of the unit test of `shouldShowQuestion`. -/
def gatedQuestion : Question :=
  { id := "schoolBlockers"
    showIf := some [("marksRange", .arr [.str "30to50", .str "below30"])] }

/-- A required multi-choice question. -/
def requiredMulti : Question :=
  { id := "q3", type := "multi", required := true }

/-- A required free-text question. -/
def requiredText : Question :=
  { id := "q5", type := "text", required := true }

/-- The two sections of the unit test of `getFlatVisibleQuestions`. -/
def flatSections : List Section :=
  [⟨[{ id := "q1" }, { id := "q2", showIf := some [("q1", .str "yes")] }]⟩,
   ⟨[{ id := "q3" }]⟩]

/-- A questionnaire of six questions without sections. -/
def sixQuestions : Questionnaire :=
  { sections := [], totalQuestions := 6 }

/-- Answers that claim adequate finances and flag the lack of resources. -/
def financialAnswers : Answers :=
  [("financialSituation", .str "okay"), ("schoolBlockers", .arr [.str "noResources"])]

/-- Answers that claim perfect attendance and flag attendance as a blocker. -/
def attendanceAnswers : Answers :=
  [("attendance", .str "always"), ("schoolBlockers", .arr [.str "attendance"])]

/-- The questionnaire of the unit tests of the quality engine: an attention
check that expects `sometimes` and five questions with the options `a`, `b`
and `c`. -/
def qualityQuestionnaire : Questionnaire :=
  { totalQuestions := 6
    sections :=
    [⟨[{ id := "attentionCheck", type := "single",
         attentionCheck := .object (.str "sometimes"),
         options := some [⟨.str "rarely", none⟩, ⟨.str "sometimes", none⟩,
                          ⟨.str "often", none⟩] },
       { id := "q1", type := "single",
         options := some [⟨.str "a", none⟩, ⟨.str "b", none⟩, ⟨.str "c", none⟩] },
       { id := "q2", type := "single",
         options := some [⟨.str "a", none⟩, ⟨.str "b", none⟩, ⟨.str "c", none⟩] },
       { id := "q3", type := "single",
         options := some [⟨.str "a", none⟩, ⟨.str "b", none⟩, ⟨.str "c", none⟩] },
       { id := "q4", type := "single",
         options := some [⟨.str "a", none⟩, ⟨.str "b", none⟩, ⟨.str "c", none⟩] },
       { id := "q5", type := "single",
         options := some [⟨.str "a", none⟩, ⟨.str "b", none⟩, ⟨.str "c", none⟩] }]⟩] }

/-- The clean answers of the unit tests of the quality engine. -/
def cleanAnswers : Answers :=
  [("attentionCheck", .str "sometimes"), ("q1", .str "a"), ("q2", .str "b"),
   ("q3", .str "c"), ("q4", .str "a")]

/-- Answers that always pick the first option and miss the attention check. -/
def straightAnswers : Answers :=
  [("attentionCheck", .str "rarely"), ("q1", .str "a"), ("q2", .str "a"),
   ("q3", .str "a"), ("q4", .str "a"), ("q5", .str "a")]

/-- Answers that pick the first option four times out of five. -/
def fourOfFiveAnswers : Answers :=
  [("attentionCheck", .str "sometimes"), ("q1", .str "a"), ("q2", .str "a"),
   ("q3", .str "a"), ("q4", .str "a"), ("q5", .str "b")]

/-- A questionnaire of forty single-choice questions, `s0` to `s39`, each with
the options `a` and `b`. -/
def fortyQuestions : Questionnaire :=
  { totalQuestions := 40
    sections :=
    [⟨(List.range 40).map (fun i =>
        { id := "s" ++ toString i, type := "single",
          options := some [⟨.str "a", none⟩, ⟨.str "b", none⟩] })⟩] }

/-- Answers to the forty questions: `a` for the first twenty-three, `b` for
the other seventeen. -/
def fortyAnswers : Answers :=
  (List.range 40).map
    (fun i => ("s" ++ toString i, if i < 23 then JsVal.str "a" else JsVal.str "b"))

/-- A questionnaire whose only answer gives full academic readiness and no
support need. -/
def perfectQuestionnaire : Questionnaire :=
  { sections :=
    [⟨[{ id := "marks", type := "single",
         options := some [⟨.str "top", some [("academicReadiness", 100),
                                             ("supportNeed", 0)]⟩] }]⟩] }

/-- The questionnaire of the unit test of `generateSubmissionPayload`, with a
weight of 0 in place of 80. -/
def payloadQuestionnaire : Questionnaire :=
  { version := some "1.2.0"
    totalQuestions := 4
    sections :=
    [⟨[{ id := "name", type := "text" },
       { id := "attentionCheck", type := "single",
         attentionCheck := .object (.str "sometimes"),
         options := some [⟨.str "rarely", none⟩, ⟨.str "sometimes", none⟩,
                          ⟨.str "often", none⟩] },
       { id := "goal", type := "single",
         options := some [⟨.str "a", some [("practicalPreference", 0)]⟩] }]⟩] }

/-- The answers of the unit test of `generateSubmissionPayload`. -/
def payloadAnswers : Answers :=
  [("name", .str "Ava"), ("consent_agree", .bool true),
   ("attentionCheck", .str "sometimes"), ("goal", .str "a"), ("attendance", .str "always"),
   ("transportAccess", .str "difficult"), ("financialSituation", .str "difficult"),
   ("homeResponsibilities", .str "many"), ("deviceAccess", .str "no"), ("safety", .str "no")]

/-- A call that reads the clock 2 seconds after the start time 0. -/
def earlyDraws : Draws :=
  { submissionId := "id-1", createdAt := "t1", endTime := 2000, language := "en-US" }

/-- A call that reads the clock 20 seconds after the start time 0. -/
def lateDraws : Draws :=
  { submissionId := "id-2", createdAt := "t2", endTime := 20000, language := "en-US" }

/-- A queue of three items. -/
def sampleQueue : List QueueItem :=
  [{ submission_id := "a", queued_at := "t0", retry_count := 0, body := "x" },
   { submission_id := "b", queued_at := "t1", retry_count := 2, body := "y" },
   { submission_id := "c", queued_at := "t2", retry_count := 0, body := "z" }]

/-- A calendar with two terms in 2026. -/
def sampleCalendar : Calendar :=
  [(2026, [{ term := 1, start := ⟨2026, 1, 14⟩, end_ := ⟨2026, 3, 27⟩ },
           { term := 2, start := ⟨2026, 4, 8⟩, end_ := ⟨2026, 6, 26⟩ }])]

/-- The questionnaire of the unit test of `calculateScores`. -/
def sampleQuestionnaire : Questionnaire :=
  { sections :=
    [⟨[{ id := "attendance", type := "single",
         options := some [⟨.str "always", some [("academicReadiness", 100)]⟩,
                          ⟨.str "rarely", some [("academicReadiness", 20)]⟩] },
       { id := "strengths", type := "multi",
         options := some [⟨.str "hands", some [("practicalPreference", 20)]⟩,
                          ⟨.str "people", some [("practicalPreference", 40)]⟩] }]⟩] }

/-- The answers of the unit test of `calculateScores`. -/
def sampleAnswers : Answers :=
  [("attendance", .str "always"), ("strengths", .arr [.str "hands", .str "people"])]

/-- The answers of the unit test with the multi-choice selection reversed. -/
def sampleAnswersSwapped : Answers :=
  [("attendance", .str "always"), ("strengths", .arr [.str "people", .str "hands"])]

/-- A questionnaire whose weights leave the interval from 0 to 100. -/
def wideQuestionnaire : Questionnaire :=
  { sections :=
    [⟨[{ id := "attendance", type := "single",
         options := some [⟨.str "always", some [("academicReadiness", 250),
                                                ("supportNeed", -30)]⟩] }]⟩] }

/-! ## Lemmas on the scoring loop -/

theorem weightsFor_nil (d : String) : weightsFor d [] = [] := rfl

theorem weightsFor_cons (d : String) (x : String × Int) (rest : List (String × Int)) :
    weightsFor d (x :: rest)
      = if x.1 = d then x.2 :: weightsFor d rest else weightsFor d rest := by
  unfold weightsFor
  by_cases h : x.1 = d <;> simp [List.filter_cons, h]

theorem weightsFor_append (d : String) (xs ys : List (String × Int)) :
    weightsFor d (xs ++ ys) = weightsFor d xs ++ weightsFor d ys := by
  simp [weightsFor]

theorem weightsFor_perm (d : String) {xs ys : List (String × Int)} (h : xs.Perm ys) :
    (weightsFor d xs).Perm (weightsFor d ys) :=
  (h.filter _).map _

/-- The loop of `addScores` adds, to every dimension of the running scores,
the sum and the number of the weights the entries hold for it. -/
theorem foldl_addScore (entries : List (String × Int)) (scores : Running) :
    entries.foldl addScore scores
      = scores.map (fun e =>
          (e.1, { total := e.2.total + (weightsFor e.1 entries).sum,
                  count := e.2.count + (weightsFor e.1 entries).length,
                  average := e.2.average })) := by
  induction entries generalizing scores with
  | nil => simp [weightsFor_nil]
  | cons x rest ih =>
    rw [List.foldl_cons, ih, addScore, List.map_map]
    apply List.map_congr_left
    intro e _
    by_cases h : e.1 = x.1
    · simp [weightsFor_cons, h]
      constructor <;> omega
    · have h2 : ¬ x.1 = e.1 := fun h3 => h h3.symm
      simp [weightsFor_cons, h, h2]

theorem addSelected_eq (options : List Opt) (scores : Running) (v : JsVal) :
    addSelected options scores v = (pickedMaps options v).flatten.foldl addScore scores := by
  unfold addSelected pickedMaps
  cases options.find? (fun opt => opt.value.strictEq v) with
  | none => simp
  | some o =>
    cases h : o.score with
    | none => simp [h]
    | some m => simp [h, addScores]

theorem foldl_addSelected (options : List Opt) (vs : List JsVal) (scores : Running) :
    vs.foldl (addSelected options) scores
      = (vs.flatMap (pickedMaps options)).flatten.foldl addScore scores := by
  induction vs generalizing scores with
  | nil => simp
  | cons v rest ih =>
    rw [List.foldl_cons, ih, addSelected_eq]
    simp [List.flatMap_cons, List.foldl_append]

theorem scoreQuestion_eq (answers : Answers) (scores : Running) (question : Question) :
    scoreQuestion answers scores question
      = (questionPicks answers question).flatten.foldl addScore scores := by
  unfold scoreQuestion questionPicks
  generalize answers.get question.id = answer
  cases hopt : question.options with
  | none => simp
  | some options =>
    cases ht : answer.truthy with
    | false => simp [ht]
    | true =>
      by_cases hs : question.type = "single"
      · simp [ht, hs, addSelected_eq]
      · by_cases hm : question.type = "multi"
        · cases answer with
          | arr xs => simp [ht, hm, JsVal.isArray, JsVal.elems, foldl_addSelected]
          | _ => simp [ht, hm, JsVal.isArray, JsVal.elems]
        · simp [ht, hs, hm]

theorem foldl_scoreQuestion (answers : Answers) (questions : List Question)
    (scores : Running) :
    questions.foldl (scoreQuestion answers) scores
      = (questions.flatMap (questionPicks answers)).flatten.foldl addScore scores := by
  induction questions generalizing scores with
  | nil => simp
  | cons q rest ih =>
    rw [List.foldl_cons, ih, scoreQuestion_eq]
    simp [List.flatMap_cons, List.foldl_append]

theorem foldl_sections (answers : Answers) (sections : List Section) (scores : Running) :
    sections.foldl (fun sc section_ => section_.questions.foldl (scoreQuestion answers) sc) scores
      = ((sections.flatMap (fun s => s.questions)).flatMap
          (questionPicks answers)).flatten.foldl addScore scores := by
  induction sections generalizing scores with
  | nil => simp
  | cons s rest ih =>
    rw [List.foldl_cons, ih, foldl_scoreQuestion]
    simp [List.flatMap_cons, List.foldl_append]

/-- The scores of `calculateScores`, dimension by dimension, from the picked
weights. -/
theorem calculateScores_eq (config : ScoringConfig) (answers : Answers)
    (questionnaire : Questionnaire) :
    calculateScores config answers questionnaire
      = config.dimensions.map (fun d =>
          (d, finalize { total := (pickedWeights answers questionnaire d).sum,
                         count := (pickedWeights answers questionnaire d).length,
                         average := 0 })) := by
  unfold calculateScores
  simp only [foldl_sections, foldl_addScore, initializeScores, List.map_map]
  apply List.map_congr_left
  intro d _
  simp [pickedWeights, picks]

theorem lookup_map_key {β : Type} (f : String → β) (l : List String) (d : String)
    (hd : d ∈ l) : (l.map (fun k => (k, f k))).lookup d = some (f d) := by
  induction l with
  | nil => cases hd
  | cons k rest ih =>
    by_cases h : d = k
    · subst h
      simp [List.lookup]
    · have hmem : d ∈ rest := by
        cases hd with
        | head => exact absurd rfl h
        | tail _ h2 => exact h2
      have hne : (d == k) = false := by simpa using h
      simp [List.lookup, hne, ih hmem]

theorem calculateScores_lookup (config : ScoringConfig) (answers : Answers)
    (questionnaire : Questionnaire) (d : String) (hd : d ∈ config.dimensions) :
    (calculateScores config answers questionnaire).lookup d
      = some (finalize { total := (pickedWeights answers questionnaire d).sum,
                         count := (pickedWeights answers questionnaire d).length,
                         average := 0 }) := by
  rw [calculateScores_eq]
  exact lookup_map_key _ _ d hd

theorem finalize_range (data : DimAcc) : 0 ≤ finalize data ∧ finalize data ≤ 100 := by
  unfold finalize
  constructor
  · exact le_max_left _ _
  · exact max_le (by decide) (min_le_left _ _)

/-- The integer formula of `roundDiv` is rounding to the nearest integer, a
half rounding up: the floor of `total / count + 1 / 2`. -/
theorem roundDiv_eq_floor (total : Int) (count : Nat) (hc : 0 < count) :
    roundDiv total count = ⌊(total : ℚ) / (count : ℚ) + 1 / 2⌋ := by
  have hc2 : (count : ℚ) ≠ 0 := by exact_mod_cast hc.ne.symm
  have h : (total : ℚ) / (count : ℚ) + 1 / 2
      = ((2 * total + (count : Int) : Int) : ℚ) / ((2 * count : Nat) : ℚ) := by
    push_cast
    field_simp
    ring
  rw [h, Rat.floor_intCast_div_natCast]
  simp [roundDiv]

theorem strictEq_arr (v : JsVal) (xs : List JsVal) : v.strictEq (JsVal.arr xs) = false := by
  cases v <;> rfl

theorem pickedMaps_arr (options : List Opt) (xs : List JsVal) :
    pickedMaps options (JsVal.arr xs) = [] := by
  unfold pickedMaps
  have h : options.find? (fun opt => opt.value.strictEq (JsVal.arr xs)) = none := by
    simp [List.find?_eq_none, strictEq_arr]
  rw [h]

theorem questionPicks_perm (answers₁ answers₂ : Answers) (qid : String)
    (xs ys : List JsVal)
    (h₁ : answers₁.get qid = JsVal.arr xs) (h₂ : answers₂.get qid = JsVal.arr ys)
    (hperm : xs.Perm ys)
    (hothers : ∀ k, k ≠ qid → answers₁.get k = answers₂.get k)
    (question : Question) :
    (questionPicks answers₁ question).Perm (questionPicks answers₂ question) := by
  by_cases hq : question.id = qid
  · unfold questionPicks
    rw [hq, h₁, h₂]
    cases question.options with
    | none => exact List.Perm.refl _
    | some options =>
      by_cases hs : question.type = "single"
      · simp [JsVal.truthy, hs, pickedMaps_arr]
      · by_cases hm : question.type = "multi"
        · simp only [JsVal.truthy, hm, JsVal.elems]
          simpa using hperm.flatMap_right (pickedMaps options)
        · simp [JsVal.truthy, hs, hm]
  · unfold questionPicks
    rw [hothers _ hq]

theorem pickedWeights_perm (answers₁ answers₂ : Answers) (qid : String)
    (xs ys : List JsVal)
    (h₁ : answers₁.get qid = JsVal.arr xs) (h₂ : answers₂.get qid = JsVal.arr ys)
    (hperm : xs.Perm ys)
    (hothers : ∀ k, k ≠ qid → answers₁.get k = answers₂.get k)
    (questionnaire : Questionnaire) (d : String) :
    (pickedWeights answers₁ questionnaire d).Perm (pickedWeights answers₂ questionnaire d) := by
  unfold pickedWeights picks
  apply weightsFor_perm
  apply List.Perm.flatten
  apply List.Perm.flatMap_left
  intro q _
  exact questionPicks_perm answers₁ answers₂ qid xs ys h₁ h₂ hperm hothers q

/-! ## Claims on `calculateScores` -/

/-- C1: for every answers map and questionnaire, `calculateScores` gives every
configured dimension an integer score between 0 and 100, whatever the
weights. -/
theorem calculateScores_range (config : ScoringConfig) (answers : Answers)
    (questionnaire : Questionnaire) (d : String) (hd : d ∈ config.dimensions) :
    ∃ s : Int, (calculateScores config answers questionnaire).lookup d = some s
      ∧ 0 ≤ s ∧ s ≤ 100 :=
  ⟨_, calculateScores_lookup config answers questionnaire d hd, finalize_range _⟩

/-- Witness: the weights 250 and -30 give scores within the interval. -/
theorem calculateScores_range_witness :
    "supportNeed" ∈ sampleConfig.dimensions
      ∧ ∃ s : Int, (calculateScores sampleConfig sampleAnswers wideQuestionnaire).lookup
            "supportNeed" = some s ∧ 0 ≤ s ∧ s ≤ 100 :=
  ⟨by decide,
   calculateScores_range sampleConfig sampleAnswers wideQuestionnaire "supportNeed" (by decide)⟩

/-- C2: a configured dimension to which no picked score map contributes a
weight has score exactly 50. -/
theorem calculateScores_default (config : ScoringConfig) (answers : Answers)
    (questionnaire : Questionnaire) (d : String) (hd : d ∈ config.dimensions)
    (hnone : ∀ m ∈ picks answers questionnaire, ∀ e ∈ m, e.1 ≠ d) :
    (calculateScores config answers questionnaire).lookup d = some 50 := by
  have hw : pickedWeights answers questionnaire d = [] := by
    unfold pickedWeights weightsFor
    rw [List.map_eq_nil_iff, List.filter_eq_nil_iff]
    intro e he
    obtain ⟨m, hm, hem⟩ := List.mem_flatten.mp he
    simpa using hnone m hm e hem
  rw [calculateScores_lookup config answers questionnaire d hd, hw]
  rfl

/-- Witness: the unit test, where no option scores `supportNeed`. -/
theorem calculateScores_default_witness :
    "supportNeed" ∈ sampleConfig.dimensions
      ∧ (∀ m ∈ picks sampleAnswers sampleQuestionnaire, ∀ e ∈ m, e.1 ≠ "supportNeed")
      ∧ (calculateScores sampleConfig sampleAnswers sampleQuestionnaire).lookup
            "supportNeed" = some 50 :=
  ⟨by decide, by decide,
   calculateScores_default sampleConfig sampleAnswers sampleQuestionnaire "supportNeed"
     (by decide) (by decide)⟩

/-- C3: two answers maps that differ only in that the selected-value list of
one question is permuted get identical scores from `calculateScores`. -/
theorem calculateScores_perm (config : ScoringConfig) (answers₁ answers₂ : Answers)
    (questionnaire : Questionnaire) (qid : String) (xs ys : List JsVal)
    (h₁ : answers₁.get qid = JsVal.arr xs) (h₂ : answers₂.get qid = JsVal.arr ys)
    (hperm : xs.Perm ys)
    (hothers : ∀ k, k ≠ qid → answers₁.get k = answers₂.get k) :
    calculateScores config answers₁ questionnaire
      = calculateScores config answers₂ questionnaire := by
  rw [calculateScores_eq, calculateScores_eq]
  apply List.map_congr_left
  intro d _
  have hp := pickedWeights_perm answers₁ answers₂ qid xs ys h₁ h₂ hperm hothers questionnaire d
  rw [hp.sum_eq, hp.length_eq]

/-- Witness: the selection `hands, people` against `people, hands`. -/
theorem calculateScores_perm_witness :
    calculateScores sampleConfig sampleAnswers sampleQuestionnaire
      = calculateScores sampleConfig sampleAnswersSwapped sampleQuestionnaire :=
  calculateScores_perm sampleConfig sampleAnswers sampleAnswersSwapped sampleQuestionnaire
    "strengths" [.str "hands", .str "people"] [.str "people", .str "hands"]
    rfl rfl (List.Perm.swap _ _ _)
    (by
      intro k hk
      have hne : (k == "strengths") = false := by simpa using hk
      simp [sampleAnswers, sampleAnswersSwapped, Answers.get, List.lookup, hne])

/-- C4: for a dimension with at least one contributing pick, `calculateScores`
returns the average of the picked weights, rounded to the nearest integer and
clamped to the interval from 0 to 100. -/
theorem calculateScores_average (config : ScoringConfig) (answers : Answers)
    (questionnaire : Questionnaire) (d : String) (hd : d ∈ config.dimensions)
    (hn : 1 ≤ (pickedWeights answers questionnaire d).length) :
    (calculateScores config answers questionnaire).lookup d
      = some (clamp ⌊(((pickedWeights answers questionnaire d).sum : Int) : ℚ)
                      / (((pickedWeights answers questionnaire d).length : Nat) : ℚ)
                      + 1 / 2⌋) := by
  rw [calculateScores_lookup config answers questionnaire d hd,
    ← roundDiv_eq_floor _ _ hn]
  have hpos : (pickedWeights answers questionnaire d).length > 0 := hn
  simp [finalize, clamp, hpos]

/-- Witness: the picks 20 and 40 give 30. -/
theorem calculateScores_average_witness :
    pickedWeights sampleAnswers sampleQuestionnaire "practicalPreference" = [20, 40]
      ∧ (calculateScores sampleConfig sampleAnswers sampleQuestionnaire).lookup
            "practicalPreference" = some 30
      ∧ (calculateScores sampleConfig sampleAnswers sampleQuestionnaire).lookup
            "practicalPreference"
          = some (clamp ⌊(((pickedWeights sampleAnswers sampleQuestionnaire
                "practicalPreference").sum : Int) : ℚ)
              / (((pickedWeights sampleAnswers sampleQuestionnaire
                "practicalPreference").length : Nat) : ℚ) + 1 / 2⌋) :=
  ⟨by decide, by decide,
   calculateScores_average sampleConfig sampleAnswers sampleQuestionnaire
     "practicalPreference" (by decide) (by decide)⟩

/-! ## Lemmas on condition sets -/

theorem someMember_iff (scores : Scores) (members : List Conditions) :
    someMember scores members = true ↔ ∃ m ∈ members, checkConditions scores m = true := by
  induction members with
  | nil => simp [someMember]
  | cons c rest ih => simp [someMember, ih]

theorem checkThresholds_iff (scores : Scores) (entries : List (String × Threshold)) :
    checkThresholds scores entries = true ↔ ∀ e ∈ entries, entryPasses scores e := by
  induction entries with
  | nil => simp [checkThresholds]
  | cons e rest ih =>
    obtain ⟨dimension, thresholds⟩ := e
    rw [List.forall_mem_cons, ← ih, checkThresholds]
    unfold entryPasses
    cases hs : scores.lookup dimension with
    | none => simp
    | some score =>
      cases hmin : thresholds.min with
      | none =>
        cases hmax : thresholds.max with
        | none => simp
        | some hi =>
          by_cases h2 : score > hi
          · simp [h2]
          · simp [h2, not_lt.mp h2]
      | some lo =>
        by_cases h1 : score < lo
        · simp [h1]
        · cases hmax : thresholds.max with
          | none => simp [h1, not_lt.mp h1]
          | some hi =>
            by_cases h2 : score > hi
            · simp [h1, h2]
            · simp [h1, h2, not_lt.mp h1, not_lt.mp h2]

theorem pathMatches_iff (scores : Scores) (rule : PathRule) :
    pathMatches scores rule
      ↔ (match rule.conditions with
          | some conditions => checkConditions scores conditions
          | none => false) = true := by
  unfold pathMatches
  cases rule.conditions with
  | none => simp
  | some c => simp

/-- A loop that pushes `f x` for every `x` accepted by `p` builds the filtered
list, mapped by `f`, behind what was already there. -/
theorem foldl_push {α β : Type} (p : α → Bool) (f : α → β) (l : List α) (init : List β) :
    l.foldl (fun applicable x => if p x then applicable ++ [f x] else applicable) init
      = init ++ (l.filter p).map f := by
  induction l generalizing init with
  | nil => simp
  | cons x rest ih =>
    rw [List.foldl_cons, ih]
    by_cases h : p x = true
    · simp [h]
    · simp [h]

/-! ## Claims on recommendations, conditions, drivers and modifiers -/

/-- C5: `determineRecommendation` returns A when path A's condition set
matches, otherwise B when path B's matches, otherwise C; the result is always
one of A, B and C. -/
theorem determineRecommendation_priority (config : ScoringConfig) (scores : Scores) :
    (pathMatches scores config.thresholdA → determineRecommendation config scores = "A")
      ∧ (¬ pathMatches scores config.thresholdA → pathMatches scores config.thresholdB →
          determineRecommendation config scores = "B")
      ∧ (¬ pathMatches scores config.thresholdA → ¬ pathMatches scores config.thresholdB →
          determineRecommendation config scores = "C")
      ∧ (determineRecommendation config scores = "A"
          ∨ determineRecommendation config scores = "B"
          ∨ determineRecommendation config scores = "C") := by
  simp only [pathMatches_iff, determineRecommendation]
  refine ⟨?_, ?_, ?_, ?_⟩
  · intro hA
    simp [hA]
  · intro hA hB
    simp [hA, hB]
  · intro hA hB
    simp [hA, hB]
  · split
    · exact Or.inl rfl
    · split
      · exact Or.inr (Or.inl rfl)
      · exact Or.inr (Or.inr rfl)

/-- Witness: a score set that satisfies the conditions of both A and B
is recommended A. -/
theorem determineRecommendation_priority_witness :
    pathMatches [("academicReadiness", 60), ("practicalPreference", 70)] sampleConfig.thresholdA
      ∧ pathMatches [("academicReadiness", 60), ("practicalPreference", 70)]
          sampleConfig.thresholdB
      ∧ determineRecommendation sampleConfig
          [("academicReadiness", 60), ("practicalPreference", 70)] = "A" :=
  ⟨⟨_, rfl, by decide⟩, ⟨_, rfl, by decide⟩,
   (determineRecommendation_priority sampleConfig
      [("academicReadiness", 60), ("practicalPreference", 70)]).1 ⟨_, rfl, by decide⟩⟩

/-- C6, as stated, fails: with the score 10 for `x`, the condition set made of
an `OR` entry with one empty (matching) member and the entry `x` with `min`
50 is accepted, although the threshold entry does not pass. -/
theorem or_entry_overrides_thresholds :
    checkConditions [("x", 10)]
        (.mk (some [.mk none false []]) false [("x", { min := some 50 })]) = true
      ∧ (∃ m ∈ [Conditions.mk none false []], checkConditions [("x", 10)] m = true)
      ∧ ¬ (∀ e ∈ [(("x", { min := some 50 }) : String × Threshold)],
            entryPasses [("x", 10)] e) := by
  refine ⟨by decide, ⟨_, List.mem_singleton.mpr rfl, by decide⟩, ?_⟩
  intro h
  have h2 := (h _ (List.mem_singleton.mpr rfl) 10 rfl).1 50 rfl
  exact absurd h2 (by decide)

/-- C6, amended: a condition set with an `OR` entry matches if and only if at
least one member of the `OR` entry matches; its other entries are not
evaluated. -/
theorem checkConditions_or_iff (scores : Scores) (members : List Conditions)
    (dflt : Bool) (entries : List (String × Threshold)) :
    checkConditions scores (.mk (some members) dflt entries) = true
      ↔ ∃ m ∈ members, checkConditions scores m = true := by
  rw [checkConditions, someMember_iff]

/-- C7: a condition set made only of dimension-threshold entries matches if
and only if every entry whose dimension has a score respects its inclusive
bounds; an entry without a score passes, and the empty set matches. -/
theorem checkConditions_thresholds (scores : Scores) (entries : List (String × Threshold)) :
    (checkConditions scores (.mk none false entries) = true
        ↔ ∀ e ∈ entries, ∀ score, scores.lookup e.1 = some score →
            (∀ m, e.2.min = some m → m ≤ score) ∧ (∀ m, e.2.max = some m → score ≤ m))
      ∧ (∀ e : String × Threshold, scores.lookup e.1 = none →
          (checkConditions scores (.mk none false (e :: entries)) = true
            ↔ checkConditions scores (.mk none false entries) = true))
      ∧ checkConditions scores (.mk none false []) = true := by
  refine ⟨?_, ?_, ?_⟩
  · rw [checkConditions, checkThresholds_iff]
    rfl
  · intro e hnone
    obtain ⟨dimension, thresholds⟩ := e
    simp only [checkConditions]
    rw [checkThresholds]
    simp only at hnone
    rw [hnone]
  · rw [checkConditions, checkThresholds]

/-- Witness: with the score 60 for `x`, the bounds 55 to 60 on `x` and
an entry on the unscored `y` are accepted. -/
theorem checkConditions_thresholds_witness :
    List.lookup "y" [("x", (60 : Int))] = none
      ∧ (checkConditions [("x", 60)]
            (.mk none false [("y", { min := some 90 }), ("x", { min := some 55, max := some 60 })])
            = true
          ↔ checkConditions [("x", 60)]
              (.mk none false [("x", { min := some 55, max := some 60 })]) = true)
      ∧ checkConditions [("x", 60)]
          (.mk none false [("x", { min := some 55, max := some 60 })]) = true :=
  ⟨by decide,
   (checkConditions_thresholds [("x", 60)] [("x", { min := some 55, max := some 60 })]).2.1
     ("y", { min := some 90 }) (by decide),
   by decide⟩

/-- C8: `getDrivers` returns the keys of the matching driver templates in
declared order, truncated to the first `maxDrivers`; the result is an initial
segment of the list of all matching keys and has at most `maxDrivers` keys. -/
theorem getDrivers_spec (config : ScoringConfig) (scores : Scores) :
    getDrivers config scores
        = (((config.driverTemplates.filter
              (fun kd => checkConditions scores kd.2.condition)).map Prod.fst).take
            config.maxDrivers)
      ∧ getDrivers config scores
          <+: (config.driverTemplates.filter
                (fun kd => checkConditions scores kd.2.condition)).map Prod.fst
      ∧ (getDrivers config scores).length ≤ config.maxDrivers := by
  have h : getDrivers config scores
      = (((config.driverTemplates.filter
            (fun kd => checkConditions scores kd.2.condition)).map Prod.fst).take
          config.maxDrivers) := by
    unfold getDrivers
    simp only [foldl_push (fun (kd : String × Driver) => checkConditions scores kd.2.condition)
      Prod.fst]
    simp
  refine ⟨h, ?_, ?_⟩
  · rw [h]
    exact List.take_prefix _ _
  · rw [h]
    exact List.length_take_le _ _

/-- C9: `getModifiers` returns exactly the configured modifiers whose
condition set matches, each as often as it is configured, in declared
order. -/
theorem getModifiers_spec (config : ScoringConfig) (scores : Scores) :
    getModifiers config scores
        = config.modifiers.filter (fun m => checkConditions scores m.condition)
      ∧ (∀ m, m ∈ getModifiers config scores
          ↔ m ∈ config.modifiers ∧ checkConditions scores m.condition = true)
      ∧ (getModifiers config scores).Sublist config.modifiers := by
  have h : getModifiers config scores
      = config.modifiers.filter (fun m => checkConditions scores m.condition) := by
    have hpush := foldl_push (fun (m : Modifier) => checkConditions scores m.condition) id
      config.modifiers []
    simpa [getModifiers] using hpush
  refine ⟨h, ?_, ?_⟩
  · intro m
    rw [h, List.mem_filter]
  · rw [h]
    exact List.filter_sublist _

/-! ## Claims on the branching engine -/

theorem strictEq_iff_eq (a b : JsVal) (hb : b.isArray = false) :
    a.strictEq b = true ↔ a = b := by
  cases a <;> cases b <;> simp [JsVal.strictEq, JsVal.isArray] at hb ⊢

theorem showIfLoop_iff (answers : Answers) (showIf : List (String × JsVal)) :
    showIfLoop answers showIf = true ↔ ∀ e ∈ showIf, showIfEntryPasses answers e := by
  induction showIf with
  | nil => simp [showIfLoop]
  | cons e rest ih =>
    obtain ⟨k, allowed⟩ := e
    rw [List.forall_mem_cons, ← ih]
    unfold showIfEntryPasses
    cases ht : (answers.get k).truthy with
    | false => cases allowed <;> simp [showIfLoop, ht]
    | true =>
      cases allowed with
      | arr vs => simp [showIfLoop, ht, includes, JsVal.isArray]
      | _ => simp [showIfLoop, ht, JsVal.isArray, strictEq_iff_eq]

/-- C10: a question with no `showIf` is shown whatever the answers; a question
with a `showIf` is shown if and only if, for every key of `showIf`, the answer
for that key is present and is a member of the allowed list, or equals the
allowed scalar. -/
theorem shouldShowQuestion_spec (question : Question) (answers : Answers) :
    (question.showIf = none → shouldShowQuestion question answers = true)
      ∧ (∀ showIf, question.showIf = some showIf →
          (shouldShowQuestion question answers = true
            ↔ ∀ e ∈ showIf, showIfEntryPasses answers e)) := by
  constructor
  · intro h
    simp [shouldShowQuestion, h]
  · intro showIf h
    simp [shouldShowQuestion, h, showIfLoop_iff]

/-- Witness: the gated question of the unit test is shown once
`marksRange` is answered with an allowed value, and a question without
`showIf` is shown without any answer. -/
theorem shouldShowQuestion_spec_witness :
    shouldShowQuestion { id := "q1" } [] = true
      ∧ (shouldShowQuestion gatedQuestion [("marksRange", .str "30to50")] = true
          ↔ ∀ e ∈ [("marksRange", JsVal.arr [.str "30to50", .str "below30"])],
              showIfEntryPasses [("marksRange", .str "30to50")] e)
      ∧ shouldShowQuestion gatedQuestion [("marksRange", .str "30to50")] = true
      ∧ shouldShowQuestion gatedQuestion [("marksRange", .str "above70")] = false
      ∧ shouldShowQuestion gatedQuestion [] = false :=
  ⟨(shouldShowQuestion_spec { id := "q1" } []).1 rfl,
   (shouldShowQuestion_spec gatedQuestion [("marksRange", .str "30to50")]).2 _ rfl,
   by decide, by decide, by decide⟩

theorem foldl_push_all {α β : Type} (f : α → β) (l : List α) (init : List β) :
    l.foldl (fun result x => result ++ [f x]) init = init ++ l.map f := by
  induction l generalizing init with
  | nil => simp
  | cons x rest ih => simp [ih]

theorem foldl_append_flatMap {α β : Type} (g : α → List β) (l : List α) (init : List β) :
    l.foldl (fun result x => result ++ g x) init = init ++ l.flatMap g := by
  induction l generalizing init with
  | nil => simp
  | cons x rest ih => simp [ih]

theorem exists_mem_dropWhile {α : Type} (p : α → Bool) (l : List α) :
    (∃ x ∈ l.dropWhile p, p x = false) ↔ ∃ x ∈ l, p x = false := by
  induction l with
  | nil => simp
  | cons a rest ih =>
    by_cases h : p a = true
    · simp [List.dropWhile_cons, h, ih]
    · simp [List.dropWhile_cons, h]

theorem dropWhile_ne_nil_iff {α : Type} (p : α → Bool) (l : List α) :
    l.dropWhile p ≠ [] ↔ ∃ x ∈ l, p x = false := by
  rw [Ne, List.dropWhile_eq_nil_iff]
  simp

/-- The trimmed string is not empty exactly when the string holds a character
that is not white space. -/
theorem jsTrim_length_pos (s : String) : (jsTrim s).length > 0 ↔ hasVisibleChar s := by
  unfold jsTrim hasVisibleChar
  rw [String.length_mk, List.length_reverse, gt_iff_lt, List.length_pos,
    dropWhile_ne_nil_iff]
  simp only [List.mem_reverse]
  exact exists_mem_dropWhile isTrimmed s.data

/-- C11: a question whose `showIf` has a key whose gating answer is absent or
falsy is not shown, whatever the other keys and answers are. -/
theorem shouldShowQuestion_fail_closed (question : Question) (answers : Answers)
    (showIf : List (String × JsVal)) (hshow : question.showIf = some showIf)
    (e : String × JsVal) (he : e ∈ showIf) (hfalsy : (answers.get e.1).truthy = false) :
    shouldShowQuestion question answers = false := by
  have hnot : ¬ showIfLoop answers showIf = true := by
    intro h
    have hpass := ((showIfLoop_iff answers showIf).mp h e he).1
    rw [hfalsy] at hpass
    exact Bool.noConfusion hpass
  simpa [shouldShowQuestion, hshow] using hnot

/-- Witness: the gated question of the unit test is hidden while `marksRange`
has no answer. -/
theorem shouldShowQuestion_fail_closed_witness :
    (Answers.get [] "marksRange").truthy = false
      ∧ shouldShowQuestion gatedQuestion [] = false :=
  ⟨rfl,
   shouldShowQuestion_fail_closed gatedQuestion []
     [("marksRange", .arr [.str "30to50", .str "below30"])] rfl
     ("marksRange", .arr [.str "30to50", .str "below30"]) (List.mem_singleton.mpr rfl) rfl⟩

/-- C12: `getFlatVisibleQuestions` is the concatenation, over the sections in
declared order, of the pairs of the section with each of its questions that
`shouldShowQuestion` accepts, in declared order; `getVisibleQuestions` is an
order-preserving filter. -/
theorem getFlatVisibleQuestions_spec (sections : List Section) (answers : Answers) :
    getFlatVisibleQuestions sections answers
        = sections.flatMap (fun s =>
            (s.questions.filter (fun q => shouldShowQuestion q answers)).map
              (fun q => (s, q)))
      ∧ ∀ s : Section,
          (getVisibleQuestions s answers).Sublist s.questions
            ∧ ∀ q, q ∈ getVisibleQuestions s answers
                ↔ q ∈ s.questions ∧ shouldShowQuestion q answers = true := by
  constructor
  · unfold getFlatVisibleQuestions
    simp only [foldl_push_all, getVisibleQuestions]
    rw [foldl_append_flatMap]
    simp
  · intro s
    unfold getVisibleQuestions
    exact ⟨List.filter_sublist _, fun q => List.mem_filter⟩

/-- C13, as stated, fails: a required multi-choice question whose answer is
the string `a` counts as answered, although the answer is no selection
list. -/
theorem isQuestionAnswered_multi_scalar :
    isQuestionAnswered requiredMulti [("q3", .str "a")] = some true
      ∧ ¬ isNonEmptySelection (Answers.get [("q3", .str "a")] requiredMulti.id) := by
  refine ⟨by decide, ?_⟩
  rintro ⟨xs, h, _⟩
  have hget : Answers.get [("q3", .str "a")] requiredMulti.id = JsVal.str "a" := rfl
  rw [hget] at h
  cases h

/-- C13, amended: for a required multi-choice question whose answer is absent,
null or a list, `isQuestionAnswered` returns true if and only if the answer is
a non-empty selection list; any other answer counts as answered. -/
theorem isQuestionAnswered_multi (question : Question) (answers : Answers)
    (hreq : question.required = true) (htype : question.type = "multi") :
    ((answers.get question.id = JsVal.undefined ∨ answers.get question.id = JsVal.null
          ∨ (answers.get question.id).isArray = true) →
        ∃ b, isQuestionAnswered question answers = some b
          ∧ (b = true ↔ isNonEmptySelection (answers.get question.id)))
      ∧ (¬ (answers.get question.id = JsVal.undefined ∨ answers.get question.id = JsVal.null
            ∨ (answers.get question.id).isArray = true) →
          isQuestionAnswered question answers = some true) := by
  unfold isQuestionAnswered isNonEmptySelection
  generalize answers.get question.id = answer
  cases answer with
  | arr xs =>
    cases xs <;> simp [hreq, htype, JsVal.isArray, JsVal.elems]
  | _ => simp [hreq, htype, JsVal.isArray]

/-- Witness: the empty selection is unanswered and the selection `a` is
answered. -/
theorem isQuestionAnswered_multi_witness :
    (∃ b, isQuestionAnswered requiredMulti [("q3", .arr [])] = some b
        ∧ (b = true ↔ isNonEmptySelection (Answers.get [("q3", .arr [])] requiredMulti.id)))
      ∧ isQuestionAnswered requiredMulti [("q3", .arr [])] = some false
      ∧ isQuestionAnswered requiredMulti [("q3", .arr [.str "a"])] = some true :=
  ⟨(isQuestionAnswered_multi requiredMulti [("q3", .arr [])] rfl rfl).1
      (Or.inr (Or.inr rfl)),
   by decide, by decide⟩

/-- C14: for a required question of type text or textarea,
`isQuestionAnswered` returns false when the answer is absent or null, and for
an answer string it returns true if and only if the string holds a character
that is not white space. -/
theorem isQuestionAnswered_text (question : Question) (answers : Answers)
    (hreq : question.required = true)
    (htype : question.type = "text" ∨ question.type = "textarea") :
    ((answers.get question.id = JsVal.undefined ∨ answers.get question.id = JsVal.null) →
        isQuestionAnswered question answers = some false)
      ∧ ∀ s, answers.get question.id = JsVal.str s →
          ∃ b, isQuestionAnswered question answers = some b
            ∧ (b = true ↔ hasVisibleChar s) := by
  unfold isQuestionAnswered
  generalize answers.get question.id = answer
  constructor
  · rintro (h | h) <;> subst h <;> simp [hreq]
  · intro s h
    subst h
    refine ⟨decide ((jsTrim s).length > 0), ?_, ?_⟩
    · rcases htype with h | h <;> simp [hreq, h]
    · rw [decide_eq_true_iff]
      exact jsTrim_length_pos s

/-- Witness: a blank string is unanswered and the string `ok` is answered. -/
theorem isQuestionAnswered_text_witness :
    isQuestionAnswered requiredText [] = some false
      ∧ isQuestionAnswered requiredText [("q5", .str " ")] = some false
      ∧ isQuestionAnswered requiredText [("q5", .str "ok")] = some true :=
  ⟨(isQuestionAnswered_text requiredText [] rfl (Or.inl rfl)).1 (Or.inl rfl),
   by decide, by decide⟩

/-- The unit test of `getFlatVisibleQuestions`: with `q1` answered `yes`, the
three questions are listed in declared order. -/
theorem getFlatVisibleQuestions_unit_test :
    (getFlatVisibleQuestions flatSections [("q1", .str "yes")]).map (fun e => e.2.id)
      = ["q1", "q2", "q3"] := by
  decide

/-! ## Lemmas on the quality engine -/

theorem riskOrder_bumpRisk (risk level : Risk) :
    riskOrder (bumpRisk risk level) = max (riskOrder risk) (riskOrder level) := by
  cases risk <;> cases level <;> decide

theorem mem_addReason_self (reasons : List String) (reason : String) :
    reason ∈ addReason reasons reason := by
  unfold addReason
  by_cases h : reason ∈ reasons
  · simp [h]
  · simp [h]

theorem mem_addReason_of_mem (reasons : List String) (reason r : String) (h : r ∈ reasons) :
    r ∈ addReason reasons reason := by
  unfold addReason
  split
  · exact List.mem_append_left _ h
  · exact h

/-- The risk of `verdict` has the greatest rank among the raised levels. -/
theorem verdict_risk (isSpeeding : Bool) (attentionPassed : Option Bool)
    (contradictionCount : Nat) (isSuspicious : Bool) (isPerfect : Bool) :
    riskOrder (verdict isSpeeding attentionPassed contradictionCount isSuspicious isPerfect).1
      = maxRank (raisedLevels isSpeeding attentionPassed contradictionCount isSuspicious
          isPerfect) := by
  rcases contradictionCount with _ | _ | n <;>
    rcases attentionPassed with _ | _ | _ <;>
    cases isSpeeding <;> cases isSuspicious <;> cases isPerfect <;>
    simp [verdict, raisedLevels, maxRank, bumpRisk, riskOrder]

theorem maxRank_ge (levels : List Risk) (l : Risk) (h : l ∈ levels) :
    riskOrder l ≤ maxRank levels := by
  unfold maxRank
  have hmono : ∀ (ms : List Nat) (i : Nat), i ≤ ms.foldl max i := by
    intro ms
    induction ms with
    | nil => intro i; exact le_refl _
    | cons b r ihr =>
      intro i
      rw [List.foldl_cons]
      exact le_trans (le_max_left _ _) (ihr _)
  have hgen : ∀ (ns : List Nat) (init n : Nat), n ∈ ns → n ≤ ns.foldl max init := by
    intro ns
    induction ns with
    | nil => intro init n hn; cases hn
    | cons a rest ih =>
      intro init n hn
      rw [List.foldl_cons]
      rcases List.mem_cons.mp hn with h1 | h1
      · subst h1
        exact le_trans (le_max_right _ _) (hmono rest _)
      · exact ih _ n h1
  exact hgen _ 0 _ (List.mem_map.mpr ⟨l, h, rfl⟩)

/-- The reasons of `verdict` are the codes of the checks that flagged, in
the order of the checks. -/
theorem verdict_reasons (isSpeeding : Bool) (attentionPassed : Option Bool)
    (contradictionCount : Nat) (isSuspicious : Bool) (isPerfect : Bool) :
    (verdict isSpeeding attentionPassed contradictionCount isSuspicious isPerfect).2
      = (if isSpeeding = true then ["speeding"] else [])
        ++ (if attentionPassed = some false then ["attention_check_failed"] else [])
        ++ (if contradictionCount > 0 then ["contradictions"] else [])
        ++ (if isSuspicious = true then ["straight_lining"] else [])
        ++ (if isPerfect = true then ["perfect_profile"] else []) := by
  rcases contradictionCount with _ | n <;>
    rcases attentionPassed with _ | _ | _ <;>
    cases isSpeeding <;> cases isSuspicious <;> cases isPerfect <;>
    simp [verdict, addReason]

theorem maxRank_le (levels : List Risk) (k : Nat)
    (h : ∀ l ∈ levels, riskOrder l ≤ k) : maxRank levels ≤ k := by
  unfold maxRank
  have hgen : ∀ (ns : List Nat) (init : Nat), init ≤ k → (∀ n ∈ ns, n ≤ k) →
      ns.foldl max init ≤ k := by
    intro ns
    induction ns with
    | nil => intro init hi _; exact hi
    | cons a rest ih =>
      intro init hi hall
      rw [List.foldl_cons]
      exact ih _ (max_le hi (hall a (List.mem_cons_self _ _)))
        (fun n hn => hall n (List.mem_cons_of_mem _ hn))
  apply hgen _ 0 (Nat.zero_le _)
  intro n hn
  obtain ⟨l, hl, rfl⟩ := List.mem_map.mp hn
  exact h l hl

theorem riskOrder_le_two (r : Risk) : riskOrder r ≤ 2 := by
  cases r <;> decide

theorem assessDataQuality_rank (config : ScoringConfig) (answers : Answers)
    (questionnaire : Questionnaire) (metadata : Metadata) :
    riskOrder (assessDataQuality config answers questionnaire metadata).risk
      = maxRank (levelsOf config answers questionnaire metadata) := by
  unfold assessDataQuality levelsOf
  exact verdict_risk _ _ _ _ _

theorem assessDataQuality_reasons (config : ScoringConfig) (answers : Answers)
    (questionnaire : Questionnaire) (metadata : Metadata) :
    (assessDataQuality config answers questionnaire metadata).reasons
      = (verdict
          (checkSpeeding metadata.completion_duration_seconds
            questionnaire.totalQuestions).isSpeeding
          (checkAttention answers questionnaire)
          (checkContradictions answers).length
          (checkStraightLining answers questionnaire).isSuspicious
          (checkPerfectProfile config answers questionnaire).isPerfect).2 := rfl

/-- A duration that is not zero and below three seconds per question is
flagged: the risk is high and the reasons contain `speeding`. -/
theorem speeding_flagged (config : ScoringConfig) (answers : Answers)
    (questionnaire : Questionnaire) (seconds : Int) (hne : seconds ≠ 0)
    (hlt : seconds < 3 * questionnaire.totalQuestions) :
    (assessDataQuality config answers questionnaire
        { completion_duration_seconds := some seconds }).risk = Risk.high
      ∧ "speeding" ∈ (assessDataQuality config answers questionnaire
        { completion_duration_seconds := some seconds }).reasons := by
  have hs : (checkSpeeding (some seconds) questionnaire.totalQuestions).isSpeeding = true := by
    have hlt2 : seconds < questionnaire.totalQuestions * 3 := by omega
    simp [checkSpeeding, hne, hlt2]
  constructor
  · have hrank := assessDataQuality_rank config answers questionnaire
      { completion_duration_seconds := some seconds }
    have hmem : Risk.high ∈ levelsOf config answers questionnaire
        { completion_duration_seconds := some seconds } := by
      simp [levelsOf, raisedLevels, hs]
    have hge := maxRank_ge _ _ hmem
    rw [← hrank] at hge
    generalize (assessDataQuality config answers questionnaire
      { completion_duration_seconds := some seconds }).risk = r at hge
    cases r
    · exact absurd hge (by decide)
    · exact absurd hge (by decide)
    · rfl
  · rw [assessDataQuality_reasons, verdict_reasons]
    simp [hs]

theorem financial_guard (answers : Answers) :
    ((answers.get "financialSituation").strictEq (.str "okay")
      && (QualityEngine.getConstraintFlags answers).contains "financial") = false := by
  unfold QualityEngine.getConstraintFlags
  cases hok : (answers.get "financialSituation").strictEq (.str "okay") with
  | false => simp
  | true =>
    have heq : answers.get "financialSituation" = JsVal.str "okay" :=
      (strictEq_iff_eq (answers.get "financialSituation") (JsVal.str "okay") rfl).mp hok
    have hd : (answers.get "financialSituation").strictEq (.str "difficult") = false := by
      rw [heq]
      decide
    rw [hd]
    split <;> decide

theorem gatherCheck_eq (checks : List AttentionItem) (question : Question) :
    gatherCheck checks question = checks ++ (attentionItem question).toList := by
  unfold gatherCheck attentionItem isAttentionCheck
  cases question.attentionCheck with
  | absent => simp
  | text s =>
    by_cases h : s = ""
    · simp [h]
    · simp [h]
  | object expected =>
    cases h : expected.truthy <;> simp [h]

theorem foldl_gatherCheck (questions : List Question) (init : List AttentionItem) :
    questions.foldl gatherCheck init
      = init ++ questions.flatMap (fun q => (attentionItem q).toList) := by
  induction questions generalizing init with
  | nil => simp
  | cons q rest ih => simp [ih, gatherCheck_eq]

theorem foldl_gather_sections (sections : List Section) (init : List AttentionItem) :
    sections.foldl (fun checks section_ => section_.questions.foldl gatherCheck checks) init
      = init ++ (sections.flatMap (fun s => s.questions)).flatMap
          (fun q => (attentionItem q).toList) := by
  induction sections generalizing init with
  | nil => simp
  | cons sec rest ih =>
    rw [List.foldl_cons, foldl_gatherCheck, ih]
    simp

/-- The counters after the second loop of `checkAttention`. -/
theorem foldl_attentionStep (answers : Answers) (checks : List AttentionItem)
    (st : AttentionState) :
    checks.foldl (attentionStep answers) st
      = { answered := st.answered
            + checks.countP (fun c => !isBlank (answers.get c.id))
          failed := st.failed
            + checks.countP (fun c => !isBlank (answers.get c.id)
                && !(answers.get c.id).strictEq c.expected)
          requiredMissing := st.requiredMissing
            || checks.any (fun c => c.required && isBlank (answers.get c.id)) } := by
  induction checks generalizing st with
  | nil => simp
  | cons c rest ih =>
    rw [List.foldl_cons, ih]
    cases hb : isBlank (answers.get c.id) <;> cases hr : c.required <;>
      cases he : (answers.get c.id).strictEq c.expected <;>
      simp [attentionStep, hb, hr, he, List.countP_cons] <;> omega

/-- The result of `checkAttention` from the attention checks of the
questionnaire. -/
theorem checkAttention_eq (answers : Answers) (questionnaire : Questionnaire) :
    checkAttention answers questionnaire
      = if (attentionChecks questionnaire).length = 0 then none
        else if (attentionChecks questionnaire).any
            (fun c => c.required && isBlank (answers.get c.id)) = true then some false
        else if (attentionChecks questionnaire).countP
            (fun c => !isBlank (answers.get c.id)) = 0 then none
        else some (decide ((attentionChecks questionnaire).countP
            (fun c => !isBlank (answers.get c.id)
              && !(answers.get c.id).strictEq c.expected) = 0)) := by
  have hg : questionnaire.sections.foldl
      (fun checks section_ => section_.questions.foldl gatherCheck checks) []
        = attentionChecks questionnaire := by
    rw [foldl_gather_sections]
    rfl
  unfold checkAttention
  simp only [hg, foldl_attentionStep, Nat.zero_add, Bool.false_or]

theorem increment_countsOf (i : Nat) (hi : i ≤ 4) (ps : List Nat) :
    increment i (countsOf ps) = countsOf (ps ++ [i]) := by
  interval_cases i <;> simp [increment, countsOf, List.count_append, List.count_cons]

theorem liningStep_counts (answers : Answers) (st : LiningState) (question : Question)
    (ps : List Nat) (htotal : st.totalSingleChoice = ps.length)
    (hcounts : st.positionCounts = countsOf ps) :
    (liningStep answers st question).totalSingleChoice
        = (ps ++ (talliedPosition answers question).toList).length
      ∧ (liningStep answers st question).positionCounts
        = countsOf (ps ++ (talliedPosition answers question).toList) := by
  unfold liningStep talliedPosition
  by_cases hg : question.type = "single" ∧ question.options.isSome = true
      ∧ isAttentionCheck question = false
  · obtain ⟨h1, h2, h3⟩ := hg
    cases ht : (answers.get question.id).truthy with
    | false => simp [h1, h2, h3, ht, htotal, hcounts]
    | true =>
      cases hf : findIndex (fun opt => opt.value.strictEq (answers.get question.id))
          (question.options.getD []) with
      | none => simp [h1, h2, h3, ht, hf, htotal, hcounts]
      | some index =>
        by_cases hi : index ≤ 4
        · simp [h1, h2, h3, ht, hf, hi, htotal, hcounts, increment_countsOf]
        · simp [h1, h2, h3, ht, hf, hi, htotal, hcounts]
  · have hstep : (question.type = "single" && question.options.isSome
        && !isAttentionCheck question) = false := by
      by_contra hne
      apply hg
      simpa using hne
    have hnone : ¬ (question.type = "single" ∧ question.options.isSome = true
        ∧ isAttentionCheck question = false
        ∧ (answers.get question.id).truthy = true) := fun h => hg ⟨h.1, h.2.1, h.2.2.1⟩
    simp only [hstep, if_neg hnone]
    simp [htotal, hcounts]

theorem foldl_liningStep (answers : Answers) (questions : List Question) (st : LiningState)
    (ps : List Nat) (htotal : st.totalSingleChoice = ps.length)
    (hcounts : st.positionCounts = countsOf ps) :
    (questions.foldl (liningStep answers) st).totalSingleChoice
        = (ps ++ questions.flatMap (fun q => (talliedPosition answers q).toList)).length
      ∧ (questions.foldl (liningStep answers) st).positionCounts
        = countsOf (ps ++ questions.flatMap (fun q => (talliedPosition answers q).toList)) := by
  induction questions generalizing st ps with
  | nil => simpa using ⟨htotal, hcounts⟩
  | cons q rest ih =>
    obtain ⟨h1, h2⟩ := liningStep_counts answers st q ps htotal hcounts
    have h := ih (liningStep answers st q) _ h1 h2
    simpa [List.flatMap_cons, List.append_assoc] using h

theorem foldl_lining_sections (answers : Answers) (sections : List Section)
    (st : LiningState) (ps : List Nat) (htotal : st.totalSingleChoice = ps.length)
    (hcounts : st.positionCounts = countsOf ps) :
    (sections.foldl (fun st section_ => section_.questions.foldl (liningStep answers) st)
          st).totalSingleChoice
        = (ps ++ (sections.flatMap (fun s => s.questions)).flatMap
            (fun q => (talliedPosition answers q).toList)).length
      ∧ (sections.foldl (fun st section_ => section_.questions.foldl (liningStep answers) st)
          st).positionCounts
        = countsOf (ps ++ (sections.flatMap (fun s => s.questions)).flatMap
            (fun q => (talliedPosition answers q).toList)) := by
  induction sections generalizing st ps with
  | nil => simpa using ⟨htotal, hcounts⟩
  | cons sec rest ih =>
    obtain ⟨h1, h2⟩ := foldl_liningStep answers sec.questions st ps htotal hcounts
    have h := ih _ _ h1 h2
    simpa [List.flatMap_cons, List.flatMap_append, List.append_assoc] using h

/-- The result of `checkStraightLining` from the tallied positions. -/
theorem checkStraightLining_eq (answers : Answers) (questionnaire : Questionnaire) :
    ((talliedPositions answers questionnaire).length < 5 →
        checkStraightLining answers questionnaire
          = { isSuspicious := false, score := 0, dominant_position := none })
      ∧ (5 ≤ (talliedPositions answers questionnaire).length →
          (checkStraightLining answers questionnaire).isSuspicious
              = Double.gt
                  (Double.div
                    (Double.ofNat (dominantCount (talliedPositions answers questionnaire)))
                    (Double.ofNat (talliedPositions answers questionnaire).length))
                  (toDouble 8 10)
            ∧ (checkStraightLining answers questionnaire).score
              = mathRound (Double.mul
                  (Double.div
                    (Double.ofNat (dominantCount (talliedPositions answers questionnaire)))
                    (Double.ofNat (talliedPositions answers questionnaire).length))
                  (Double.ofNat 100))) := by
  obtain ⟨h1, h2⟩ := foldl_lining_sections answers questionnaire.sections
    { totalSingleChoice := 0, positionCounts := [0, 0, 0, 0, 0], maxPosition := 0 } []
    rfl rfl
  rw [List.nil_append] at h1 h2
  have h1' : _ = (talliedPositions answers questionnaire).length := h1
  have h2' : _ = countsOf (talliedPositions answers questionnaire) := h2
  unfold checkStraightLining
  simp only [h1', h2']
  constructor
  · intro hlt
    rw [if_pos hlt]
  · intro hge
    have hge2 : ¬ (talliedPositions answers questionnaire).length < 5 := by omega
    rw [if_neg hge2]
    simp only [dominantCount, and_self]

theorem dominantCount_le (ps : List Nat) : dominantCount ps ≤ ps.length := by
  unfold dominantCount countsOf
  simp only [List.foldl]
  have h := fun p => List.count_le_length p ps
  refine max_le (max_le (max_le (max_le (max_le (Nat.zero_le _) (h 0)) (h 1)) (h 2)) (h 3)) (h 4)

/-! ## Lemmas on doubles -/

theorem bitLengthLoop_spec (fuel n : Nat) (h : n ≤ fuel) :
    n < 2 ^ bitLengthLoop fuel n ∧ (0 < n → 2 ^ (bitLengthLoop fuel n - 1) ≤ n) := by
  induction fuel generalizing n with
  | zero =>
    have h0 : n = 0 := by omega
    subst h0
    simp [bitLengthLoop]
  | succ f ih =>
    rw [bitLengthLoop]
    by_cases h0 : n = 0
    · simp [h0]
    · rw [if_neg h0]
      obtain ⟨h1, h2⟩ := ih (n / 2) (by omega)
      constructor
      · rw [pow_succ]
        omega
      · intro _
        rw [Nat.add_sub_cancel]
        by_cases h3 : n / 2 = 0
        · have hz : bitLengthLoop f (n / 2) = 0 := by
            rw [h3]
            cases f <;> simp [bitLengthLoop]
          rw [hz]
          simp
          omega
        · have h4 := h2 (by omega)
          obtain ⟨l, hl⟩ : ∃ l, bitLengthLoop f (n / 2) = l + 1 := by
            cases hb : bitLengthLoop f (n / 2) with
            | zero =>
              rw [hb] at h1
              simp at h1
              exact absurd h1 h3
            | succ l => exact ⟨l, rfl⟩
          rw [hl] at h4 ⊢
          rw [Nat.add_sub_cancel] at h4
          rw [pow_succ]
          omega

/-- The loop of `bitLength` has fuel enough: a positive `n` lies between
`2 ^ (bitLength n - 1)` and `2 ^ bitLength n`. -/
theorem bitLength_spec (n : Nat) (hn : 0 < n) :
    2 ^ (bitLength n - 1) ≤ n ∧ n < 2 ^ (bitLength n - 1 + 1) := by
  obtain ⟨h1, h2⟩ := bitLengthLoop_spec n n (Nat.le_refl n)
  have hpos : 0 < bitLengthLoop n n := by
    rcases Nat.eq_zero_or_pos (bitLengthLoop n n) with h | h
    · rw [h] at h1
      simp at h1
      omega
    · exact h
  unfold bitLength
  refine ⟨h2 hn, ?_⟩
  rw [Nat.sub_add_cancel hpos]
  exact h1

theorem roundHalfEven_near (n d : Nat) (hd : 0 < d) :
    2 * roundHalfEven n d * d ≤ 2 * n + d ∧ 2 * n ≤ 2 * roundHalfEven n d * d + d := by
  have hdiv := Nat.div_add_mod n d
  have hmod := Nat.mod_lt n hd
  unfold roundHalfEven
  simp only
  generalize n / d = q at hdiv ⊢
  generalize n % d = r at hdiv hmod ⊢
  have hq : 2 * q * d = 2 * (d * q) := by ring
  have hq1 : 2 * (q + 1) * d = 2 * (d * q) + 2 * d := by ring
  split
  · rw [hq]; omega
  · split
    · rw [hq1]; omega
    · split
      · rw [hq]; omega
      · rw [hq1]; omega

theorem roundHalfEven_range (n d lo : Nat) (hd : 0 < d) (h1 : d * lo ≤ n)
    (h2 : n < d * (2 * lo)) :
    lo ≤ roundHalfEven n d ∧ roundHalfEven n d ≤ 2 * lo := by
  have hlo : lo ≤ n / d := (Nat.le_div_iff_mul_le hd).mpr (by rw [Nat.mul_comm]; exact h1)
  have hhi : n / d < 2 * lo := (Nat.div_lt_iff_lt_mul hd).mpr (by rw [Nat.mul_comm]; exact h2)
  unfold roundHalfEven
  simp only
  split
  · omega
  · split
    · omega
    · split <;> omega

/-- The quotient scaled by the binade has its leading digit at bit 52. -/
theorem binade_scaled (n d : Nat) (hn : 0 < n) (hd : 0 < d) (he : binade n d ≤ 52) :
    d * 2 ^ 52 ≤ n * 2 ^ (52 - binade n d).toNat
      ∧ n * 2 ^ (52 - binade n d).toNat < d * (2 * 2 ^ 52) := by
  obtain ⟨ha1, ha2⟩ := bitLength_spec n hn
  obtain ⟨hb1, hb2⟩ := bitLength_spec d hd
  have hs : ((52 - binade n d).toNat : Int) = 52 - binade n d :=
    Int.toNat_of_nonneg (by omega)
  revert hs he
  unfold binade
  simp only
  generalize bitLength n - 1 = a at ha1 ha2 ⊢
  generalize bitLength d - 1 = b at hb1 hb2 ⊢
  split
  · rename_i hc
    intro he
    generalize (52 - ((a : Int) - b)).toNat = s
    intro hs
    have hsa : s + a = 52 + b := by omega
    have hpa : 0 < 2 ^ a := Nat.two_pow_pos _
    constructor
    · apply Nat.le_of_mul_le_mul_right _ hpa
      calc d * 2 ^ 52 * 2 ^ a = d * 2 ^ a * 2 ^ 52 := by ring
        _ ≤ n * 2 ^ b * 2 ^ 52 := Nat.mul_le_mul_right _ hc
        _ = n * 2 ^ (52 + b) := by rw [pow_add]; ring
        _ = n * 2 ^ (s + a) := by rw [hsa]
        _ = n * 2 ^ s * 2 ^ a := by rw [pow_add]; ring
    · calc n * 2 ^ s < 2 ^ (a + 1) * 2 ^ s :=
            Nat.mul_lt_mul_of_pos_right ha2 (Nat.two_pow_pos _)
        _ = 2 ^ (s + a + 1) := by rw [← pow_add]; congr 1; omega
        _ = 2 ^ b * (2 * 2 ^ 52) := by rw [hsa]; ring
        _ ≤ d * (2 * 2 ^ 52) := Nat.mul_le_mul_right _ hb1
  · rename_i hc
    intro he
    generalize (52 - ((a : Int) - b - 1)).toNat = s
    intro hs
    have hsa : s + a = 53 + b := by omega
    have hpa : 0 < 2 ^ a := Nat.two_pow_pos _
    have hc2 : n * 2 ^ b < d * 2 ^ a := by omega
    constructor
    · calc d * 2 ^ 52 ≤ 2 ^ (b + 1) * 2 ^ 52 := Nat.mul_le_mul_right _ (Nat.le_of_lt hb2)
        _ = 2 ^ (53 + b) := by rw [← pow_add]; congr 1; omega
        _ = 2 ^ a * 2 ^ s := by rw [← hsa, pow_add]; ring
        _ ≤ n * 2 ^ s := Nat.mul_le_mul_right _ ha1
    · apply Nat.lt_of_mul_lt_mul_right (a := 2 ^ a)
      calc n * 2 ^ s * 2 ^ a = n * 2 ^ (s + a) := by rw [pow_add]; ring
        _ = n * 2 ^ b * 2 ^ 53 := by rw [hsa, pow_add]; ring
        _ < d * 2 ^ a * 2 ^ 53 := Nat.mul_lt_mul_of_pos_right hc2 (Nat.two_pow_pos _)
        _ = d * (2 * 2 ^ 52) * 2 ^ a := by ring

/-- Rounding to a double, for a quotient below `2 ^ 53`: the result has a
significand of fifty-three digits and is within half a unit of its last digit
of the quotient. -/
theorem toDouble_spec (n d : Nat) (hn : 0 < n) (hd : 0 < d) (he : binade n d ≤ 52) :
    ∃ s, (toDouble n d).den = 2 ^ s
      ∧ 2 ^ 52 ≤ (toDouble n d).num ∧ (toDouble n d).num ≤ 2 ^ 53
      ∧ 2 * (toDouble n d).num * d ≤ 2 * (n * 2 ^ s) + d
      ∧ 2 * (n * 2 ^ s) ≤ 2 * (toDouble n d).num * d + d := by
  obtain ⟨h1, h2⟩ := binade_scaled n d hn hd he
  have hval : toDouble n d
      = ⟨roundHalfEven (n * 2 ^ (52 - binade n d).toNat) d, 2 ^ (52 - binade n d).toNat⟩ := by
    unfold toDouble
    rw [if_neg (by omega)]
    simp only
    rw [if_pos he]
  rw [hval]
  refine ⟨(52 - binade n d).toNat, rfl, ?_⟩
  obtain ⟨h3, h4⟩ := roundHalfEven_range _ d (2 ^ 52) hd h1 h2
  obtain ⟨h5, h6⟩ := roundHalfEven_near (n * 2 ^ (52 - binade n d).toNat) d hd
  have h7 : roundHalfEven (n * 2 ^ (52 - binade n d).toNat) d ≤ 2 ^ 53 := by
    rw [pow_succ]
    omega
  exact ⟨h3, h7, h5, h6⟩

theorem roundHalfEven_le (n d k : Nat) (hd : 0 < d) (h : n ≤ k * d) :
    roundHalfEven n d ≤ k := by
  have hdiv := Nat.div_add_mod n d
  have hq : n / d ≤ k := by
    apply Nat.div_le_of_le_mul
    rw [Nat.mul_comm]
    exact h
  unfold roundHalfEven
  simp only
  rcases Nat.lt_or_ge (n / d) k with hlt | hge
  · split
    · omega
    · split
      · omega
      · split <;> omega
  · have hqk : n / d = k := by omega
    have hr : n % d = 0 := by
      rw [hqk, Nat.mul_comm] at hdiv
      omega
    rw [hr, hqk]
    simp [hd]

theorem binade_lt (n d c : Nat) (hn : 0 < n) (hd : 0 < d) (h : n < d * 2 ^ c) :
    binade n d < c := by
  obtain ⟨ha1, ha2⟩ := bitLength_spec n hn
  obtain ⟨hb1, hb2⟩ := bitLength_spec d hd
  unfold binade
  simp only
  generalize bitLength n - 1 = a at ha1 ha2 ⊢
  generalize bitLength d - 1 = b at hb1 hb2 ⊢
  split
  · rename_i hc
    by_contra hcon
    have hab : b + c ≤ a := by omega
    have h1 : d * 2 ^ (b + c) ≤ d * 2 ^ a :=
      Nat.mul_le_mul_left _ (Nat.pow_le_pow_right (by decide) hab)
    have h2 : n * 2 ^ b < d * 2 ^ c * 2 ^ b :=
      Nat.mul_lt_mul_of_pos_right h (Nat.two_pow_pos _)
    have h3 : d * 2 ^ c * 2 ^ b = d * 2 ^ (b + c) := by rw [pow_add]; ring
    omega
  · by_contra hcon
    have hab : b + c + 1 ≤ a := by omega
    have h1 : 2 ^ (b + c + 1) ≤ 2 ^ a := Nat.pow_le_pow_right (by decide) hab
    have h2 : d * 2 ^ c < 2 ^ (b + 1) * 2 ^ c :=
      Nat.mul_lt_mul_of_pos_right hb2 (Nat.two_pow_pos _)
    have h3 : 2 ^ (b + 1) * 2 ^ c = 2 ^ (b + c + 1) := by rw [← pow_add]; congr 1; omega
    omega

/-- Rounding to a double keeps a quotient that is at most `k` at most `k`. -/
theorem toDouble_le (n d k : Nat) (hd : 0 < d) (he : binade n d ≤ 52) (h : n ≤ k * d) :
    0 < (toDouble n d).den ∧ (toDouble n d).num ≤ k * (toDouble n d).den := by
  unfold toDouble
  by_cases hn : n = 0
  · rw [if_pos hn]
    simp
  · rw [if_neg hn]
    simp only
    rw [if_pos he]
    refine ⟨Nat.two_pow_pos _, ?_⟩
    apply roundHalfEven_le _ _ _ hd
    calc n * 2 ^ (52 - binade n d).toNat ≤ k * d * 2 ^ (52 - binade n d).toNat :=
          Nat.mul_le_mul_right _ h
      _ = k * 2 ^ (52 - binade n d).toNat * d := by ring

/-- The rounded percentage of a count `m` among `t`, computed in doubles, is
from 0 to 100. -/
theorem mathRound_percent_range (m t : Nat) (hmt : m ≤ t) (ht0 : 0 < t) (ht : t < 2 ^ 53) :
    0 ≤ mathRound (Double.mul (Double.div (Double.ofNat m) (Double.ofNat t)) (Double.ofNat 100))
      ∧ mathRound (Double.mul (Double.div (Double.ofNat m) (Double.ofNat t)) (Double.ofNat 100))
          ≤ 100 := by
  have hm53 : m < 2 ^ 53 := by omega
  have hdiv : Double.div (Double.ofNat m) (Double.ofNat t) = toDouble m t := by
    unfold Double.div Double.ofNat
    rw [if_pos hm53, if_pos ht]
    simp
  have hhundred : Double.ofNat 100 = ⟨100, 1⟩ := by decide
  rw [hdiv, hhundred]
  have hratio : 0 < (toDouble m t).den ∧ (toDouble m t).num ≤ 1 * (toDouble m t).den := by
    by_cases hm : m = 0
    · subst hm
      simp [toDouble]
    · exact toDouble_le m t 1 ht0
        (by
          have := binade_lt m t 1 (by omega) ht0 (by omega)
          omega)
        (by omega)
  generalize toDouble m t = ratio at hratio
  obtain ⟨hden, hnum⟩ := hratio
  have hprod : 0 < (Double.mul ratio ⟨100, 1⟩).den
      ∧ (Double.mul ratio ⟨100, 1⟩).num ≤ 100 * (Double.mul ratio ⟨100, 1⟩).den := by
    unfold Double.mul
    simp only [Nat.mul_one]
    by_cases hz : ratio.num * 100 = 0
    · rw [hz]
      simp [toDouble]
    · exact toDouble_le _ _ 100 hden
        (by
          have := binade_lt (ratio.num * 100) ratio.den 7 (by omega) hden (by omega)
          omega)
        (by omega)
  generalize Double.mul ratio ⟨100, 1⟩ = product at hprod
  obtain ⟨hpden, hpnum⟩ := hprod
  unfold mathRound
  constructor
  · exact Int.ediv_nonneg (by omega) (by omega)
  · have hlt : ((2 * product.num + product.den : Nat) : Int) / ((2 * product.den : Nat) : Int)
        < 101 := by
      apply Int.ediv_lt_of_lt_mul <;> omega
    omega

/-- The test `ratio > 0.8` on doubles is the test `5 * m > 4 * t` on the
counts. -/
theorem ratio_gt_iff (m t : Nat) (hmt : m ≤ t) (ht0 : 0 < t) (ht : t ≤ 2 ^ 44) :
    Double.gt (Double.div (Double.ofNat m) (Double.ofNat t)) (toDouble 8 10) = true
      ↔ 5 * m > 4 * t := by
  have hm53 : m < 2 ^ 53 := by omega
  have ht53 : t < 2 ^ 53 := by omega
  have hdiv : Double.div (Double.ofNat m) (Double.ofNat t) = toDouble m t := by
    unfold Double.div Double.ofNat
    rw [if_pos hm53, if_pos ht53]
    simp
  have hlit : toDouble 8 10 = ⟨7205759403792794, 2 ^ 53⟩ := by decide
  rw [hdiv, hlit]
  rcases Nat.eq_zero_or_pos m with hm0 | hm0
  · subst hm0
    simp [toDouble, Double.gt]
  have he : binade m t ≤ 52 := by
    have := binade_lt m t 1 hm0 ht0 (by omega)
    omega
  obtain ⟨s, hs, hM1, hM2, hMa, hMb⟩ := toDouble_spec m t hm0 ht0 he
  obtain ⟨_, hMD⟩ := toDouble_le m t 1 ht0 he (by omega)
  generalize toDouble m t = ratio at hs hM1 hM2 hMa hMb hMD
  obtain ⟨M, D⟩ := ratio
  simp only at hs hM1 hM2 hMa hMb hMD
  rw [← hs] at hMa hMb
  unfold Double.gt
  simp only [decide_eq_true_eq]
  constructor
  · intro hgt
    by_contra hle
    have hle : 5 * m ≤ 4 * t := by omega
    have h1 := Nat.mul_le_mul_right (2 * D) hle
    have h10 : 10 * M * t ≤ (8 * D + 5) * t := by
      have e1 : 5 * m * (2 * D) = 5 * (2 * (m * D)) := by ring
      have e2 : 4 * t * (2 * D) = 8 * D * t := by ring
      have e3 : 10 * M * t = 5 * (2 * M * t) := by ring
      have e4 : (8 * D + 5) * t = 8 * D * t + 5 * t := by ring
      rw [e3, e4]
      rw [e1, e2] at h1
      omega
    have h11 : 10 * M ≤ 8 * D + 5 := Nat.le_of_mul_le_mul_right h10 ht0
    rcases Nat.lt_trichotomy s 53 with hlt | heq | hgt53
    · have : D ≤ 2 ^ 52 := by
        rw [hs]
        exact Nat.pow_le_pow_right (by decide) (by omega)
      omega
    · rw [heq] at hs
      omega
    · have : 2 ^ 54 ≤ D := by
        rw [hs]
        exact Nat.pow_le_pow_right (by decide) (by omega)
      omega
  · intro hgt
    by_contra hle
    have hle : M * 2 ^ 53 ≤ 7205759403792794 * D := by omega
    have h1 := Nat.mul_le_mul_right (10 * t) hle
    have h2 := Nat.mul_le_mul_right (2 * D) (show 4 * t + 1 ≤ 5 * m by omega)
    have h3 := Nat.mul_le_mul_right D ht
    have hD : 2 ^ 52 ≤ D := by omega
    zify at h1 h2 h3 hMb hD ht
    norm_num at h1 h2 h3 hD ht
    nlinarith [h1, h2, h3, hMb, hD, ht]

/-- Below `2 ^ 53` tallied answers the score of `checkStraightLining` is from 0
to 100. -/
theorem checkStraightLining_score_range (answers : Answers) (questionnaire : Questionnaire)
    (hsize : (talliedPositions answers questionnaire).length < 2 ^ 53) :
    0 ≤ (checkStraightLining answers questionnaire).score
      ∧ (checkStraightLining answers questionnaire).score ≤ 100 := by
  by_cases hlt : (talliedPositions answers questionnaire).length < 5
  · rw [(checkStraightLining_eq answers questionnaire).1 hlt]
    decide
  · obtain ⟨_, hscore⟩ := (checkStraightLining_eq answers questionnaire).2 (by omega)
    rw [hscore]
    exact mathRound_percent_range _ _ (dominantCount_le _) (by omega) hsize

/-- The rounded percentage computed in doubles against the exact one: it is
never above it, at most one below it, and equal to it unless the exact
percentage lies half-way between two integers. -/
theorem mathRound_percent_exact (m t : Nat) (hm : 0 < m) (hmt : m ≤ t) (ht : t ≤ 2 ^ 44) :
    roundDiv (100 * (m : Int)) t - 1
        ≤ mathRound (Double.mul (Double.div (Double.ofNat m) (Double.ofNat t)) (Double.ofNat 100))
      ∧ mathRound (Double.mul (Double.div (Double.ofNat m) (Double.ofNat t)) (Double.ofNat 100))
        ≤ roundDiv (100 * (m : Int)) t
      ∧ ((200 * m + t) % (2 * t) ≠ 0 →
          mathRound (Double.mul (Double.div (Double.ofNat m) (Double.ofNat t)) (Double.ofNat 100))
            = roundDiv (100 * (m : Int)) t) := by
  have ht0 : 0 < t := by omega
  have hm53 : m < 2 ^ 53 := by omega
  have ht53 : t < 2 ^ 53 := by omega
  have hdiv : Double.div (Double.ofNat m) (Double.ofNat t) = toDouble m t := by
    unfold Double.div Double.ofNat
    rw [if_pos hm53, if_pos ht53]
    simp
  have hhundred : Double.ofNat 100 = ⟨100, 1⟩ := by decide
  rw [hdiv, hhundred]
  have he : binade m t ≤ 52 := by
    have := binade_lt m t 1 hm ht0 (by omega)
    omega
  obtain ⟨s, hs, hM1, _, hMa, hMb⟩ := toDouble_spec m t hm ht0 he
  obtain ⟨_, hMD⟩ := toDouble_le m t 1 ht0 he (by omega)
  generalize toDouble m t = ratio at hs hM1 hMa hMb hMD
  obtain ⟨M, D⟩ := ratio
  simp only at hs hM1 hMa hMb hMD
  rw [← hs] at hMa hMb
  have hD0 : 0 < D := by omega
  have he2 : binade (M * 100) D ≤ 52 := by
    have := binade_lt (M * 100) D 7 (by omega) hD0 (by omega)
    omega
  obtain ⟨s2, hs2, hP1, _, hPa, hPb⟩ := toDouble_spec (M * 100) D (by omega) hD0 he2
  obtain ⟨_, hPQ⟩ := toDouble_le (M * 100) D 100 hD0 he2 (by omega)
  have hmul : Double.mul ⟨M, D⟩ ⟨100, 1⟩ = toDouble (M * 100) D := by
    simp [Double.mul]
  rw [hmul]
  generalize toDouble (M * 100) D = product at hs2 hP1 hPa hPb hPQ
  obtain ⟨P, Q⟩ := product
  simp only at hs2 hP1 hPa hPb hPQ
  rw [← hs2] at hPa hPb
  clear hs hs2 hdiv hhundred hmul he he2
  have hQ0 : 0 < Q := by omega
  unfold mathRound roundDiv
  simp only
  have hk1 : 2 * (t : Int) * ((2 * (100 * (m : Int)) + t) / (2 * t)) ≤ 2 * (100 * (m : Int)) + t :=
    Int.mul_ediv_self_le (by omega)
  have hk2 : 2 * (100 * (m : Int)) + t
      < 2 * (t : Int) * ((2 * (100 * (m : Int)) + t) / (2 * t)) + 2 * t :=
    Int.lt_mul_ediv_self_add (by omega)
  generalize (2 * (100 * (m : Int)) + t) / (2 * t) = k at hk1 hk2
  have hne : (200 * m + t) % (2 * t) ≠ 0 → 2 * (t : Int) * k ≠ 2 * (100 * (m : Int)) + t := by
    intro hhalf heq
    apply hhalf
    have hz : ((200 * m + t : Nat) : Int) % ((2 * t : Nat) : Int) = 0 := by
      push_cast
      rw [show 200 * (m : Int) + t = 2 * t * k by omega]
      exact Int.mul_emod_right _ _
    exact_mod_cast hz
  have hMa' : 2 * (M : Int) * t ≤ 2 * (m * D) + t := by exact_mod_cast hMa
  have hMb' : 2 * ((m : Int) * D) ≤ 2 * M * t + t := by exact_mod_cast hMb
  have hPa' : 2 * (P : Int) * D ≤ 2 * (M * 100 * Q) + D := by exact_mod_cast hPa
  have hPb' : 2 * ((M : Int) * 100 * Q) ≤ 2 * P * D + D := by exact_mod_cast hPb
  have hDz : (2 : Int) ^ 52 ≤ D := by exact_mod_cast (show 2 ^ 52 ≤ D by omega)
  have hQz : (2 : Int) ^ 52 ≤ 100 * Q := by exact_mod_cast (show 2 ^ 52 ≤ 100 * Q by omega)
  have htz : (t : Int) ≤ 2 ^ 44 := by exact_mod_cast ht
  have ht0z : (0 : Int) < t := by exact_mod_cast ht0
  have hD0z : (0 : Int) < D := by exact_mod_cast hD0
  have hQ0z : (0 : Int) < Q := by exact_mod_cast hQ0
  push_cast
  generalize (M : Int) = M at *
  generalize (P : Int) = P at *
  generalize (D : Int) = D at *
  generalize (Q : Int) = Q at *
  generalize (t : Int) = t at *
  generalize (m : Int) = m at *
  have hDt : 0 < D * t := Int.mul_pos hD0z ht0z
  have F1 := mul_le_mul_of_nonneg_right hPb' (le_of_lt ht0z)
  have F1' := mul_le_mul_of_nonneg_right hPa' (le_of_lt ht0z)
  have F2 := mul_le_mul_of_nonneg_right hMb' (show (0 : Int) ≤ 100 * Q by omega)
  have F2' := mul_le_mul_of_nonneg_right hMa' (show (0 : Int) ≤ 100 * Q by omega)
  have F4 : 200 * t * Q < D * Q := by
    apply mul_lt_mul_of_pos_right _ hQ0z
    norm_num at hDz htz ⊢
    omega
  have F5 : 2 * t * D ≤ Q * D := by
    apply mul_le_mul_of_nonneg_right _ (le_of_lt hD0z)
    norm_num at hQz htz ⊢
    omega
  have hDQ : 0 < D * Q := Int.mul_pos hD0z hQ0z
  have hupper : (2 * P + Q) / (2 * Q) ≤ k := by
    have hlt : (2 * P + Q) / (2 * Q) < k + 1 := by
      apply Int.ediv_lt_of_lt_mul (by omega)
      have F3 := mul_le_mul_of_nonneg_right (show 2 * (100 * m) + t + 1 ≤ 2 * t * k + 2 * t by omega)
        (le_of_lt hDQ)
      have hgoal : (2 * P + Q) * (D * t) < (k + 1) * (2 * Q) * (D * t) := by
        linarith [F1', F2', F3, F4, F5]
      exact lt_of_mul_lt_mul_right hgoal (le_of_lt hDt)
    omega
  have hlower : k - 1 ≤ (2 * P + Q) / (2 * Q) := by
    apply Int.le_ediv_of_mul_le (by omega)
    have F3 := mul_le_mul_of_nonneg_right hk1 (le_of_lt hDQ)
    have G1 := mul_le_mul_of_nonneg_right (show (1 : Int) ≤ Q by omega) (le_of_lt hDt)
    have G2 := mul_le_mul_of_nonneg_right (show (100 : Int) ≤ D by norm_num at hDz; omega)
      (le_of_lt (Int.mul_pos ht0z hQ0z))
    have hgoal : (k - 1) * (2 * Q) * (D * t) ≤ (2 * P + Q) * (D * t) := by
      linarith [F1, F2, F3, G1, G2]
    exact le_of_mul_le_mul_right hgoal hDt
  refine ⟨hlower, hupper, ?_⟩
  intro hhalf
  have hne := hne hhalf
  have hge : k ≤ (2 * P + Q) / (2 * Q) := by
    apply Int.le_ediv_of_mul_le (by omega)
    have F3 := mul_le_mul_of_nonneg_right (show 2 * t * k + 1 ≤ 2 * (100 * m) + t by omega)
      (le_of_lt hDQ)
    have hgoal : k * (2 * Q) * (D * t) ≤ (2 * P + Q) * (D * t) := by
      linarith [F1, F2, F3, F4, F5]
    exact le_of_mul_le_mul_right hgoal hDt
  omega

/-- From five up to `2 ^ 44` tallied answers the score of `checkStraightLining`
is the rounded percentage of the dominant count or one less, and it is the
rounded percentage unless the percentage lies half-way between two
integers. -/
theorem checkStraightLining_score_near (answers : Answers) (questionnaire : Questionnaire)
    (hge : 5 ≤ (talliedPositions answers questionnaire).length)
    (hsize : (talliedPositions answers questionnaire).length ≤ 2 ^ 44) :
    ⌊(dominantCount (talliedPositions answers questionnaire) : ℚ)
          / ((talliedPositions answers questionnaire).length : ℚ) * 100 + 1 / 2⌋ - 1
        ≤ (checkStraightLining answers questionnaire).score
      ∧ (checkStraightLining answers questionnaire).score
        ≤ ⌊(dominantCount (talliedPositions answers questionnaire) : ℚ)
            / ((talliedPositions answers questionnaire).length : ℚ) * 100 + 1 / 2⌋
      ∧ ((200 * dominantCount (talliedPositions answers questionnaire)
              + (talliedPositions answers questionnaire).length)
            % (2 * (talliedPositions answers questionnaire).length) ≠ 0 →
          (checkStraightLining answers questionnaire).score
            = ⌊(dominantCount (talliedPositions answers questionnaire) : ℚ)
                / ((talliedPositions answers questionnaire).length : ℚ) * 100 + 1 / 2⌋) := by
  obtain ⟨_, hscore⟩ := (checkStraightLining_eq answers questionnaire).2 hge
  have hm := dominantCount_le (talliedPositions answers questionnaire)
  rw [hscore]
  generalize dominantCount (talliedPositions answers questionnaire) = m at hm ⊢
  generalize (talliedPositions answers questionnaire).length = t at hm hge hsize ⊢
  have hfloor : ⌊(m : ℚ) / (t : ℚ) * 100 + 1 / 2⌋ = roundDiv (100 * (m : Int)) t := by
    rw [roundDiv_eq_floor _ _ (by omega)]
    congr 1
    push_cast
    ring
  rw [hfloor]
  rcases Nat.eq_zero_or_pos m with hm0 | hm0
  · subst hm0
    have ht53 : t < 2 ^ 53 := by omega
    have hzero : mathRound (Double.mul (Double.div (Double.ofNat 0) (Double.ofNat t))
        (Double.ofNat 100)) = 0 := by
      have hdiv : Double.div (Double.ofNat 0) (Double.ofNat t) = ⟨0, 1⟩ := by
        unfold Double.div Double.ofNat
        rw [if_pos ht53]
        simp [toDouble]
      rw [hdiv]
      decide
    have hexact : roundDiv (100 * ((0 : Nat) : Int)) t = 0 := by
      unfold roundDiv
      apply Int.ediv_eq_zero_of_lt <;> omega
    rw [hzero, hexact]
    exact ⟨by decide, le_refl _, fun _ => rfl⟩
  · exact mathRound_percent_exact m t hm0 hm hsize

/-! ## Claims on the quality engine -/

/-- C15: the risk returned by `assessDataQuality` is the maximum, under
low < medium < high, of the levels raised by the individual checks; no check
lowers it, one level high makes it high, and it is low when no check
flags. -/
theorem assessDataQuality_risk (config : ScoringConfig) (answers : Answers)
    (questionnaire : Questionnaire) (metadata : Metadata) :
    riskOrder (assessDataQuality config answers questionnaire metadata).risk
        = maxRank (levelsOf config answers questionnaire metadata)
      ∧ (∀ l ∈ levelsOf config answers questionnaire metadata,
          riskOrder l ≤ riskOrder (assessDataQuality config answers questionnaire metadata).risk)
      ∧ (Risk.high ∈ levelsOf config answers questionnaire metadata →
          (assessDataQuality config answers questionnaire metadata).risk = Risk.high)
      ∧ ((∀ l ∈ levelsOf config answers questionnaire metadata, l = Risk.low) →
          (assessDataQuality config answers questionnaire metadata).risk = Risk.low) := by
  have hrank := assessDataQuality_rank config answers questionnaire metadata
  refine ⟨hrank, ?_, ?_, ?_⟩
  · intro l hl
    rw [hrank]
    exact maxRank_ge _ l hl
  · intro hmem
    have hge := maxRank_ge _ _ hmem
    rw [← hrank] at hge
    generalize (assessDataQuality config answers questionnaire metadata).risk = r at hge
    cases r
    · exact absurd hge (by decide)
    · exact absurd hge (by decide)
    · rfl
  · intro hall
    have hle : maxRank (levelsOf config answers questionnaire metadata) ≤ 0 :=
      maxRank_le _ 0 (fun l hl => by rw [hall l hl]; exact le_refl _)
    rw [← hrank] at hle
    generalize (assessDataQuality config answers questionnaire metadata).risk = r at hle
    cases r
    · rfl
    · exact absurd hle (by decide)
    · exact absurd hle (by decide)

/-- Witness: two contradictions alone make the risk high, and an input on
which no check flags has risk low. -/
theorem assessDataQuality_risk_witness :
    Risk.high ∈ levelsOf sampleConfig
        [("attendance", .str "always"), ("marksRange", .str "above70"),
         ("schoolBlockers", .arr [.str "attendance", .str "understanding"])]
        sixQuestions { completion_duration_seconds := some 30 }
      ∧ (assessDataQuality sampleConfig
          [("attendance", .str "always"), ("marksRange", .str "above70"),
           ("schoolBlockers", .arr [.str "attendance", .str "understanding"])]
          sixQuestions { completion_duration_seconds := some 30 }).risk = Risk.high
      ∧ (assessDataQuality sampleConfig [] sixQuestions
          { completion_duration_seconds := some 30 }).risk = Risk.low :=
  ⟨by decide,
   (assessDataQuality_risk sampleConfig
      [("attendance", .str "always"), ("marksRange", .str "above70"),
       ("schoolBlockers", .arr [.str "attendance", .str "understanding"])]
      sixQuestions { completion_duration_seconds := some 30 }).2.2.1 (by decide),
   (assessDataQuality_risk sampleConfig [] sixQuestions
      { completion_duration_seconds := some 30 }).2.2.2 (by decide)⟩

/-- C16 at the duration 0: zero seconds are below the threshold 18 of six
questions, yet `checkSpeeding` does not flag them and the assessment has risk
low without the reason `speeding`. -/
theorem checkSpeeding_zero_not_flagged :
    (0 : Int) < 3 * sixQuestions.totalQuestions
      ∧ (checkSpeeding (some 0) sixQuestions.totalQuestions).isSpeeding = false
      ∧ (assessDataQuality sampleConfig [] sixQuestions
          { completion_duration_seconds := some 0 }).risk = Risk.low
      ∧ (assessDataQuality sampleConfig [] sixQuestions
          { completion_duration_seconds := some 0 }).reasons = []
      ∧ (checkSpeeding (some 2) sixQuestions.totalQuestions).isSpeeding = true := by
  decide

/-- C18: when attendance is `always` and `schoolBlockers` is a list that
contains `attendance`, the contradiction `attendance_mismatch` is counted, the
reasons contain `contradictions` and the risk is at least medium. -/
theorem attendance_mismatch_counted (config : ScoringConfig) (answers : Answers)
    (questionnaire : Questionnaire) (metadata : Metadata) (xs : List JsVal)
    (hattendance : answers.get "attendance" = JsVal.str "always")
    (hblockers : answers.get "schoolBlockers" = JsVal.arr xs)
    (hmem : JsVal.str "attendance" ∈ xs) :
    "attendance_mismatch" ∈ checkContradictions answers
      ∧ 1 ≤ (assessDataQuality config answers questionnaire metadata).metrics.contradiction_count
      ∧ "contradictions" ∈ (assessDataQuality config answers questionnaire metadata).reasons
      ∧ riskOrder Risk.medium
          ≤ riskOrder (assessDataQuality config answers questionnaire metadata).risk := by
  have hinc : includes xs (JsVal.str "attendance") = true := by
    unfold includes
    rw [List.any_eq_true]
    exact ⟨_, hmem, by decide⟩
  have hfound : "attendance_mismatch" ∈ checkContradictions answers := by
    unfold checkContradictions
    simp only [hattendance, hblockers, JsVal.isArray, JsVal.elems, hinc]
    have h1 : (JsVal.str "always").strictEq (JsVal.str "always") = true := by decide
    simp only [h1, Bool.and_self, if_true]
    repeat first
      | exact List.mem_append_right _ (List.mem_singleton.mpr rfl)
      | split
      | apply List.mem_append_left
  have hcount : 1 ≤ (checkContradictions answers).length :=
    List.length_pos_of_mem hfound
  refine ⟨hfound, hcount, ?_, ?_⟩
  · rw [assessDataQuality_reasons, verdict_reasons]
    have hpos : (checkContradictions answers).length > 0 := hcount
    simp [hpos]
  · rw [assessDataQuality_rank]
    by_cases h2 : 2 ≤ (checkContradictions answers).length
    · have hm : Risk.high ∈ levelsOf config answers questionnaire metadata := by
        simp [levelsOf, raisedLevels, h2]
      exact le_trans (by decide) (maxRank_ge _ _ hm)
    · have h1 : (checkContradictions answers).length = 1 := by omega
      have hm : Risk.medium ∈ levelsOf config answers questionnaire metadata := by
        simp [levelsOf, raisedLevels, h1]
      exact maxRank_ge _ _ hm

/-- Witness: the scenario of the specification, attendance `always` with the
blocker `attendance`. -/
theorem attendance_mismatch_counted_witness :
    "attendance_mismatch" ∈ checkContradictions attendanceAnswers
      ∧ 1 ≤ (assessDataQuality sampleConfig attendanceAnswers sixQuestions
          { completion_duration_seconds := none }).metrics.contradiction_count
      ∧ "contradictions" ∈ (assessDataQuality sampleConfig attendanceAnswers sixQuestions
          { completion_duration_seconds := none }).reasons
      ∧ riskOrder Risk.medium
          ≤ riskOrder (assessDataQuality sampleConfig attendanceAnswers sixQuestions
              { completion_duration_seconds := none }).risk :=
  attendance_mismatch_counted sampleConfig attendanceAnswers sixQuestions
    { completion_duration_seconds := none } [.str "attendance"] rfl rfl
    (List.mem_singleton.mpr rfl)

/-- C19 on the code: `checkContradictions` never adds `financial_mismatch`,
because its guard asks for the financial situation `okay` and for the flag
`financial`, which is only raised by the situation `difficult`. Answers that
claim adequate finances and flag the lack of resources get no contradiction
and no reason. -/
theorem financial_mismatch_never_found :
    (∀ answers : Answers, "financial_mismatch" ∉ checkContradictions answers)
      ∧ checkContradictions financialAnswers = []
      ∧ (assessDataQuality sampleConfig financialAnswers sixQuestions
          { completion_duration_seconds := none }).metrics.contradiction_count = 0
      ∧ (assessDataQuality sampleConfig financialAnswers sixQuestions
          { completion_duration_seconds := none }).reasons = [] := by
  refine ⟨?_, by decide, by decide, by decide⟩
  intro answers
  unfold checkContradictions
  simp only [financial_guard answers]
  intro h
  simp only [Bool.false_eq_true, if_false] at h
  split at h <;> split at h <;> simp at h

/-- The result of `checkAttention` is false when a required attention check
is unanswered; otherwise it is null when no attention check is answered;
otherwise it is true if and only if every answered attention check equals its
expected value. An answered attention check with another value makes it
false. -/
theorem checkAttention_cases (answers : Answers) (questionnaire : Questionnaire) :
    ((∃ c ∈ attentionChecks questionnaire,
          c.required = true ∧ isBlank (answers.get c.id) = true) →
        checkAttention answers questionnaire = some false)
      ∧ (¬ (∃ c ∈ attentionChecks questionnaire,
              c.required = true ∧ isBlank (answers.get c.id) = true) →
          (∀ c ∈ attentionChecks questionnaire, isBlank (answers.get c.id) = true) →
          checkAttention answers questionnaire = none)
      ∧ (¬ (∃ c ∈ attentionChecks questionnaire,
              c.required = true ∧ isBlank (answers.get c.id) = true) →
          ¬ (∀ c ∈ attentionChecks questionnaire, isBlank (answers.get c.id) = true) →
          ∃ b, checkAttention answers questionnaire = some b
            ∧ (b = true ↔ ∀ c ∈ attentionChecks questionnaire,
                isBlank (answers.get c.id) = false →
                (answers.get c.id).strictEq c.expected = true))
      ∧ (∀ c ∈ attentionChecks questionnaire, isBlank (answers.get c.id) = false →
          (answers.get c.id).strictEq c.expected = false →
          checkAttention answers questionnaire = some false) := by
  rw [checkAttention_eq]
  generalize attentionChecks questionnaire = checks
  have hany : checks.any (fun c => c.required && isBlank (answers.get c.id)) = true
      ↔ ∃ c ∈ checks, c.required = true ∧ isBlank (answers.get c.id) = true := by
    simp [List.any_eq_true]
  have hnone : checks.countP (fun c => !isBlank (answers.get c.id)) = 0
      ↔ ∀ c ∈ checks, isBlank (answers.get c.id) = true := by
    simp [List.countP_eq_zero]
  have hfail : checks.countP (fun c => !isBlank (answers.get c.id)
        && !(answers.get c.id).strictEq c.expected) = 0
      ↔ ∀ c ∈ checks, isBlank (answers.get c.id) = false →
          (answers.get c.id).strictEq c.expected = true := by
    simp [List.countP_eq_zero]
  have hlen : ∀ c ∈ checks, ¬ checks.length = 0 := by
    intro c hc h0
    rw [List.length_eq_zero] at h0
    rw [h0] at hc
    cases hc
  refine ⟨?_, ?_, ?_, ?_⟩
  · rintro ⟨c, hc, hreq, hblank⟩
    rw [if_neg (hlen c hc), if_pos (hany.mpr ⟨c, hc, hreq, hblank⟩)]
  · intro hno hall
    by_cases h0 : checks.length = 0
    · rw [if_pos h0]
    · rw [if_neg h0, if_neg (fun h => hno (hany.mp h)), if_pos (hnone.mpr hall)]
  · intro hno hnotall
    have h0 : ¬ checks.length = 0 := by
      intro h0
      apply hnotall
      rw [List.length_eq_zero] at h0
      rw [h0]
      intro c hc
      cases hc
    rw [if_neg h0, if_neg (fun h => hno (hany.mp h)), if_neg (fun h => hnotall (hnone.mp h))]
    exact ⟨_, rfl, by rw [decide_eq_true_iff]; exact hfail⟩
  · intro c hc hanswered hwrong
    rw [if_neg (hlen c hc)]
    by_cases hreq : checks.any (fun c => c.required && isBlank (answers.get c.id)) = true
    · rw [if_pos hreq]
    · rw [if_neg hreq]
      have hsome : ¬ checks.countP (fun c => !isBlank (answers.get c.id)) = 0 := by
        intro h
        have hb := hnone.mp h c hc
        rw [hanswered] at hb
        exact Bool.noConfusion hb
      have hbad : ¬ checks.countP (fun c => !isBlank (answers.get c.id)
          && !(answers.get c.id).strictEq c.expected) = 0 := by
        intro h
        have hb := hfail.mp h c hc hanswered
        rw [hwrong] at hb
        exact Bool.noConfusion hb
      rw [if_neg hsome]
      simp [hbad]

/-- C17: the pass-state `metrics.attention_passed` of `assessDataQuality` is
false when a required attention check is unanswered; otherwise it is null
when no attention check is answered; otherwise it is true if and only if
every answered attention check equals its expected value. An answered
attention check with another value makes it false. -/
theorem attention_passed_spec (config : ScoringConfig) (answers : Answers)
    (questionnaire : Questionnaire) (metadata : Metadata) :
    ((∃ c ∈ attentionChecks questionnaire,
          c.required = true ∧ isBlank (answers.get c.id) = true) →
        (assessDataQuality config answers questionnaire metadata).metrics.attention_passed
          = some false)
      ∧ (¬ (∃ c ∈ attentionChecks questionnaire,
              c.required = true ∧ isBlank (answers.get c.id) = true) →
          (∀ c ∈ attentionChecks questionnaire, isBlank (answers.get c.id) = true) →
          (assessDataQuality config answers questionnaire metadata).metrics.attention_passed
            = none)
      ∧ (¬ (∃ c ∈ attentionChecks questionnaire,
              c.required = true ∧ isBlank (answers.get c.id) = true) →
          ¬ (∀ c ∈ attentionChecks questionnaire, isBlank (answers.get c.id) = true) →
          ∃ b, (assessDataQuality config answers questionnaire metadata).metrics.attention_passed
              = some b
            ∧ (b = true ↔ ∀ c ∈ attentionChecks questionnaire,
                isBlank (answers.get c.id) = false →
                (answers.get c.id).strictEq c.expected = true))
      ∧ (∀ c ∈ attentionChecks questionnaire, isBlank (answers.get c.id) = false →
          (answers.get c.id).strictEq c.expected = false →
          (assessDataQuality config answers questionnaire metadata).metrics.attention_passed
            = some false) := by
  have hmetric :
      (assessDataQuality config answers questionnaire metadata).metrics.attention_passed
        = checkAttention answers questionnaire := rfl
  rw [hmetric]
  exact checkAttention_cases answers questionnaire

/-- Witness: in the questionnaire of the unit tests, the attention check
answered with `rarely` instead of `sometimes` gives the pass-state false, the
expected answer gives true, and no answer gives null. -/
theorem attention_passed_spec_witness :
    (assessDataQuality sampleConfig straightAnswers qualityQuestionnaire
        { completion_duration_seconds := some 30 }).metrics.attention_passed = some false
      ∧ (assessDataQuality sampleConfig cleanAnswers qualityQuestionnaire
        { completion_duration_seconds := some 30 }).metrics.attention_passed = some true
      ∧ (assessDataQuality sampleConfig [] qualityQuestionnaire
        { completion_duration_seconds := some 30 }).metrics.attention_passed = none :=
  ⟨(attention_passed_spec sampleConfig straightAnswers qualityQuestionnaire
        { completion_duration_seconds := some 30 }).2.2.2
      { id := "attentionCheck", expected := .str "sometimes", required := false }
      (by
        rw [show attentionChecks qualityQuestionnaire
          = [{ id := "attentionCheck", expected := .str "sometimes", required := false }]
          from rfl]
        exact List.mem_singleton.mpr rfl)
      rfl rfl,
   by decide, by decide⟩

/-- Below five tallied answers `checkStraightLining` is a no-op; from five up
to `2 ^ 44` tallied answers it is suspicious if and only if the count of the
dominant position is strictly more than 80% of the tallied answers. -/
theorem checkStraightLining_flag (answers : Answers) (questionnaire : Questionnaire) :
    ((talliedPositions answers questionnaire).length < 5 →
        (checkStraightLining answers questionnaire).isSuspicious = false
          ∧ (checkStraightLining answers questionnaire).score = 0)
      ∧ (5 ≤ (talliedPositions answers questionnaire).length →
          (talliedPositions answers questionnaire).length ≤ 2 ^ 44 →
          ((checkStraightLining answers questionnaire).isSuspicious = true
              ↔ (dominantCount (talliedPositions answers questionnaire) : ℚ)
                  > 80 / 100 * ((talliedPositions answers questionnaire).length : ℚ))) := by
  constructor
  · intro hlt
    rw [(checkStraightLining_eq answers questionnaire).1 hlt]
    exact ⟨rfl, rfl⟩
  · intro hge hsize
    obtain ⟨hs, _⟩ := (checkStraightLining_eq answers questionnaire).2 hge
    have hm := dominantCount_le (talliedPositions answers questionnaire)
    rw [hs]
    generalize dominantCount (talliedPositions answers questionnaire) = m at hm ⊢
    generalize (talliedPositions answers questionnaire).length = t at hm hge hsize ⊢
    rw [ratio_gt_iff m t hm (by omega) hsize]
    constructor
    · intro h
      have hq : ((4 * t : ℕ) : ℚ) < ((5 * m : ℕ) : ℚ) := by exact_mod_cast h
      push_cast at hq
      linarith
    · intro h
      have hq : ((4 * t : ℕ) : ℚ) < ((5 * m : ℕ) : ℚ) := by
        push_cast
        linarith
      exact_mod_cast hq

/-- Four clean answers are too few to tally, four of five answers at one
position are not suspicious (score 80), and five of five are (score 100). -/
theorem checkStraightLining_samples :
    (talliedPositions cleanAnswers qualityQuestionnaire).length < 5
      ∧ checkStraightLining cleanAnswers qualityQuestionnaire
          = { isSuspicious := false, score := 0, dominant_position := none }
      ∧ checkStraightLining fourOfFiveAnswers qualityQuestionnaire
          = { isSuspicious := false, score := 80, dominant_position := some 0 }
      ∧ checkStraightLining straightAnswers qualityQuestionnaire
          = { isSuspicious := true, score := 100, dominant_position := some 0 } :=
  ⟨by decide, by decide, by decide, by decide⟩

/-- The quotient of 23 by 40 as a double is below 0.575, and its product with
100 is a double below 57.5, which `Math.round` takes to 57. -/
theorem double_23_of_40 :
    Double.div (Double.ofNat 23) (Double.ofNat 40) = ⟨5179139571476070, 2 ^ 53⟩
      ∧ 5179139571476070 * 1000 < 575 * 2 ^ 53
      ∧ Double.mul ⟨5179139571476070, 2 ^ 53⟩ (Double.ofNat 100)
          = ⟨8092405580431359, 2 ^ 47⟩
      ∧ 8092405580431359 * 10 < 575 * 2 ^ 47
      ∧ mathRound ⟨8092405580431359, 2 ^ 47⟩ = 57 := by
  decide

/-- C20: of the forty tallied answers of the sample twenty-three are at
position 0, so the rounded percentage of the dominant count is the rounding of
57.5, which is 58; the score of `checkStraightLining` is 57, because the
quotient 23 / 40 is rounded to a double before it is multiplied by 100. -/
theorem checkStraightLining_score_off :
    (talliedPositions fortyAnswers fortyQuestions).length = 40
      ∧ dominantCount (talliedPositions fortyAnswers fortyQuestions) = 23
      ∧ ⌊(dominantCount (talliedPositions fortyAnswers fortyQuestions) : ℚ)
            / ((talliedPositions fortyAnswers fortyQuestions).length : ℚ) * 100 + 1 / 2⌋ = 58
      ∧ checkStraightLining fortyAnswers fortyQuestions
          = { isSuspicious := false, score := 57, dominant_position := some 0 } := by
  have hlen : (talliedPositions fortyAnswers fortyQuestions).length = 40 := by decide
  have hdom : dominantCount (talliedPositions fortyAnswers fortyQuestions) = 23 := by decide
  refine ⟨hlen, hdom, ?_, by decide⟩
  rw [hlen, hdom, Int.floor_eq_iff]
  norm_num

/-- C21: the perfect-profile check flags if and only if the calculated
academic readiness is exactly 100 and the calculated support need is exactly
0; when it flags, the reasons of `assessDataQuality` contain `perfect_profile`
and the risk is at least medium. -/
theorem checkPerfectProfile_spec (config : ScoringConfig) (answers : Answers)
    (questionnaire : Questionnaire) (metadata : Metadata) :
    ((checkPerfectProfile config answers questionnaire).isPerfect = true
        ↔ (calculateScores config answers questionnaire).lookup "academicReadiness" = some 100
          ∧ (calculateScores config answers questionnaire).lookup "supportNeed" = some 0)
      ∧ ((checkPerfectProfile config answers questionnaire).isPerfect = true →
          "perfect_profile" ∈ (assessDataQuality config answers questionnaire metadata).reasons
            ∧ riskOrder Risk.medium
                ≤ riskOrder (assessDataQuality config answers questionnaire metadata).risk) := by
  constructor
  · simp [checkPerfectProfile]
  · intro hp
    constructor
    · rw [assessDataQuality_reasons, verdict_reasons]
      simp [hp]
    · rw [assessDataQuality_rank]
      apply maxRank_ge
      simp [levelsOf, raisedLevels, hp]

/-- Witness: an answer that scores academic readiness 100 and support need 0
is flagged. -/
theorem checkPerfectProfile_spec_witness :
    (checkPerfectProfile sampleConfig [("marks", .str "top")] perfectQuestionnaire).isPerfect
        = true
      ∧ "perfect_profile" ∈ (assessDataQuality sampleConfig [("marks", .str "top")]
          perfectQuestionnaire { completion_duration_seconds := none }).reasons
      ∧ riskOrder Risk.medium
          ≤ riskOrder (assessDataQuality sampleConfig [("marks", .str "top")]
              perfectQuestionnaire { completion_duration_seconds := none }).risk :=
  ⟨by decide,
   (checkPerfectProfile_spec sampleConfig [("marks", .str "top")] perfectQuestionnaire
      { completion_duration_seconds := none }).2 (by decide)⟩

theorem verdict_low_iff (isSpeeding : Bool) (attentionPassed : Option Bool)
    (contradictionCount : Nat) (isSuspicious : Bool) (isPerfect : Bool) :
    (verdict isSpeeding attentionPassed contradictionCount isSuspicious isPerfect).1 = Risk.low
      ↔ (verdict isSpeeding attentionPassed contradictionCount isSuspicious isPerfect).2 = [] := by
  rcases contradictionCount with _ | _ | n <;>
    rcases attentionPassed with _ | _ | _ <;>
    cases isSpeeding <;> cases isSuspicious <;> cases isPerfect <;>
    simp [verdict, addReason, bumpRisk, riskOrder]

theorem flaggedCodes_sublist (isSpeeding : Bool) (attentionPassed : Option Bool)
    (contradictionCount : Nat) (isSuspicious : Bool) (isPerfect : Bool) :
    (flaggedCodes isSpeeding attentionPassed contradictionCount isSuspicious
      isPerfect).Sublist reasonOrder := by
  unfold flaggedCodes reasonOrder
  rcases contradictionCount with _ | n <;>
    rcases attentionPassed with _ | _ | _ <;>
    cases isSpeeding <;> cases isSuspicious <;> cases isPerfect <;>
    first
      | (simp; done)
      | (simp; decide)

/-- C29: the reasons of `assessDataQuality` are exactly the codes of the
checks that flagged, in the fixed order of the checks and without repetition;
the risk is low if and only if there is no reason. -/
theorem assessDataQuality_reasons_spec (config : ScoringConfig) (answers : Answers)
    (questionnaire : Questionnaire) (metadata : Metadata) :
    (assessDataQuality config answers questionnaire metadata).reasons
        = codesOf config answers questionnaire metadata
      ∧ (assessDataQuality config answers questionnaire metadata).reasons.Sublist reasonOrder
      ∧ (assessDataQuality config answers questionnaire metadata).reasons.Nodup
      ∧ ((assessDataQuality config answers questionnaire metadata).risk = Risk.low
          ↔ (assessDataQuality config answers questionnaire metadata).reasons = []) := by
  have hcodes : (assessDataQuality config answers questionnaire metadata).reasons
      = codesOf config answers questionnaire metadata := by
    rw [assessDataQuality_reasons, verdict_reasons]
    rfl
  have hsub : (assessDataQuality config answers questionnaire metadata).reasons.Sublist
      reasonOrder := by
    rw [hcodes]
    exact flaggedCodes_sublist _ _ _ _ _
  refine ⟨hcodes, hsub, hsub.nodup (by decide), ?_⟩
  exact verdict_low_iff _ _ _ _ _

/-! ## Claims on the submission utilities -/

theorem strictEq_str_iff (v : JsVal) (s : String) :
    v.strictEq (JsVal.str s) = true ↔ v = JsVal.str s :=
  strictEq_iff_eq v (JsVal.str s) rfl

/-- The list of `getConstraintFlags` is the duplicate-free list, in the fixed
order, that holds each flag exactly when its answer rule holds. -/
theorem getConstraintFlags_rules (answers : Answers) :
    ("transport" ∈ SubmissionUtils.getConstraintFlags answers
        ↔ answers.get "transportAccess" = JsVal.str "difficult"
          ∨ answers.get "transportAccess" = JsVal.str "veryDifficult")
      ∧ ("financial" ∈ SubmissionUtils.getConstraintFlags answers
        ↔ answers.get "financialSituation" = JsVal.str "difficult")
      ∧ ("home_responsibilities" ∈ SubmissionUtils.getConstraintFlags answers
        ↔ answers.get "homeResponsibilities" = JsVal.str "many"
          ∨ answers.get "homeResponsibilities" = JsVal.str "caring")
      ∧ ("no_device" ∈ SubmissionUtils.getConstraintFlags answers
        ↔ answers.get "deviceAccess" = JsVal.str "no")
      ∧ ("safety_concern" ∈ SubmissionUtils.getConstraintFlags answers
        ↔ answers.get "safety" = JsVal.str "no")
      ∧ (SubmissionUtils.getConstraintFlags answers).Sublist flagOrder
      ∧ (SubmissionUtils.getConstraintFlags answers).Nodup := by
  simp only [← strictEq_str_iff]
  unfold SubmissionUtils.getConstraintFlags flagOrder
  generalize (answers.get "transportAccess").strictEq (.str "difficult") = a1
  generalize (answers.get "transportAccess").strictEq (.str "veryDifficult") = a2
  generalize (answers.get "financialSituation").strictEq (.str "difficult") = a3
  generalize (answers.get "homeResponsibilities").strictEq (.str "many") = a4
  generalize (answers.get "homeResponsibilities").strictEq (.str "caring") = a5
  generalize (answers.get "deviceAccess").strictEq (.str "no") = a6
  generalize (answers.get "safety").strictEq (.str "no") = a7
  cases a1 <;> cases a2 <;> cases a3 <;> cases a4 <;> cases a5 <;> cases a6 <;> cases a7 <;>
    decide

/-- C24: the field `derived_fields.constraint_flags` of the payload is the
duplicate-free list, in the fixed order, that holds `transport` exactly when
the transport access is `difficult` or `veryDifficult`, `financial` exactly
when the financial situation is `difficult`, `home_responsibilities` exactly
when the home responsibilities are `many` or `caring`, `no_device` exactly
when the device access is `no`, and `safety_concern` exactly when the safety
answer is `no`. -/
theorem constraint_flags_spec (config : ScoringConfig) (answers : Answers)
    (questionnaire : Questionnaire) (language : String) (startedAt : Option Int)
    (draws : Draws) :
    ("transport" ∈ (generateSubmissionPayload config answers questionnaire language startedAt
          draws).derived_fields.constraint_flags
        ↔ answers.get "transportAccess" = JsVal.str "difficult"
          ∨ answers.get "transportAccess" = JsVal.str "veryDifficult")
      ∧ ("financial" ∈ (generateSubmissionPayload config answers questionnaire language
          startedAt draws).derived_fields.constraint_flags
        ↔ answers.get "financialSituation" = JsVal.str "difficult")
      ∧ ("home_responsibilities" ∈ (generateSubmissionPayload config answers questionnaire
          language startedAt draws).derived_fields.constraint_flags
        ↔ answers.get "homeResponsibilities" = JsVal.str "many"
          ∨ answers.get "homeResponsibilities" = JsVal.str "caring")
      ∧ ("no_device" ∈ (generateSubmissionPayload config answers questionnaire language
          startedAt draws).derived_fields.constraint_flags
        ↔ answers.get "deviceAccess" = JsVal.str "no")
      ∧ ("safety_concern" ∈ (generateSubmissionPayload config answers questionnaire language
          startedAt draws).derived_fields.constraint_flags
        ↔ answers.get "safety" = JsVal.str "no")
      ∧ (generateSubmissionPayload config answers questionnaire language startedAt
          draws).derived_fields.constraint_flags.Sublist flagOrder
      ∧ (generateSubmissionPayload config answers questionnaire language startedAt
          draws).derived_fields.constraint_flags.Nodup
      ∧ (∀ flag ∈ (generateSubmissionPayload config answers questionnaire language startedAt
          draws).derived_fields.constraint_flags, flag ∈ flagOrder) := by
  have hfield :
      (generateSubmissionPayload config answers questionnaire language startedAt
          draws).derived_fields.constraint_flags
        = SubmissionUtils.getConstraintFlags answers := rfl
  rw [hfield]
  obtain ⟨h1, h2, h3, h4, h5, hsub, hnodup⟩ := getConstraintFlags_rules answers
  exact ⟨h1, h2, h3, h4, h5, hsub, hnodup, fun flag hflag => hsub.subset hflag⟩

/-- The unit test of the payload: every rule holds and the five flags come in
their order; without answers there is no flag. -/
theorem constraint_flags_samples :
    (generateSubmissionPayload sampleConfig payloadAnswers payloadQuestionnaire "en" (some 0)
        lateDraws).derived_fields.constraint_flags
        = ["transport", "financial", "home_responsibilities", "no_device", "safety_concern"]
      ∧ (generateSubmissionPayload sampleConfig [("deviceAccess", .str "no")]
        payloadQuestionnaire "en" (some 0) lateDraws).derived_fields.constraint_flags
        = ["no_device"]
      ∧ (generateSubmissionPayload sampleConfig [] payloadQuestionnaire "en" (some 0)
        lateDraws).derived_fields.constraint_flags = [] := by
  decide

/-- C30: the constraint flags of the quality engine are the constraint flags
of the payload assembler restricted to `transport` and `financial`, in the
same order. -/
theorem getConstraintFlags_agree (answers : Answers) :
    QualityEngine.getConstraintFlags answers
      = (SubmissionUtils.getConstraintFlags answers).filter
          (fun flag => flag == "transport" || flag == "financial") := by
  unfold QualityEngine.getConstraintFlags SubmissionUtils.getConstraintFlags
  generalize (answers.get "transportAccess").strictEq (.str "difficult") = a1
  generalize (answers.get "transportAccess").strictEq (.str "veryDifficult") = a2
  generalize (answers.get "financialSituation").strictEq (.str "difficult") = a3
  generalize (answers.get "homeResponsibilities").strictEq (.str "many") = a4
  generalize (answers.get "homeResponsibilities").strictEq (.str "caring") = a5
  generalize (answers.get "deviceAccess").strictEq (.str "no") = a6
  generalize (answers.get "safety").strictEq (.str "no") = a7
  cases a1 <;> cases a2 <;> cases a3 <;> cases a4 <;> cases a5 <;> cases a6 <;> cases a7 <;>
    decide

theorem lookup_setProp (obj : Answers) (key : String) (value : JsVal) (k : String) :
    (setProp obj key value).lookup k = if k = key then some value else obj.lookup k := by
  induction obj with
  | nil =>
    by_cases h : k = key
    · simp [setProp, List.lookup, h]
    · have hne : (k == key) = false := by simpa using h
      simp [setProp, List.lookup, h, hne]
  | cons e rest ih =>
    obtain ⟨ek, ev⟩ := e
    by_cases he : ek = key
    · subst he
      by_cases h : k = ek
      · simp [setProp, List.lookup, h]
      · have hne : (k == ek) = false := by simpa using h
        simp [setProp, List.lookup, h, hne]
    · by_cases h : k = key
      · subst h
        have hne : (k == ek) = false := by
          simpa using fun h2 : k = ek => he h2.symm
        simp [setProp, List.lookup, he, hne, ih]
      · by_cases h2 : k = ek
        · subst h2
          simp [setProp, List.lookup, he]
        · have hne : (k == ek) = false := by simpa using h2
          simp [setProp, List.lookup, he, hne, ih, h]

theorem lookup_extractStep (answers freeText : Answers) (question : Question) (k : String) :
    (extractStep answers freeText question).lookup k
      = if (decide (question.type = "text") && (answers.get question.id).truthy
            && decide (question.id = k)) = true
        then some (answers.get k) else freeText.lookup k := by
  unfold extractStep
  by_cases ht : question.type = "text"
  · cases hv : (answers.get question.id).truthy with
    | false => simp [ht, hv]
    | true =>
      by_cases hk : question.id = k
      · subst hk
        simp [ht, hv, lookup_setProp]
      · have hk2 : ¬ k = question.id := fun h => hk h.symm
        simp [ht, hv, hk, hk2, lookup_setProp]
  · simp [ht]

theorem lookup_foldl_extractStep (answers : Answers) (questions : List Question)
    (freeText : Answers) (k : String) :
    (questions.foldl (extractStep answers) freeText).lookup k
      = if questions.any (fun q => decide (q.type = "text") && (answers.get q.id).truthy
            && decide (q.id = k)) = true
        then some (answers.get k) else freeText.lookup k := by
  induction questions generalizing freeText with
  | nil => simp
  | cons q rest ih =>
    rw [List.foldl_cons, ih, lookup_extractStep, List.any_cons]
    by_cases h1 : (decide (q.type = "text") && (answers.get q.id).truthy
        && decide (q.id = k)) = true
    · simp [h1]
    · rw [Bool.not_eq_true] at h1
      simp [h1]

theorem lookup_extractFreeTextFields_aux (answers : Answers) (sections : List Section)
    (freeText : Answers) (k : String) :
    (sections.foldl
        (fun freeText section_ => section_.questions.foldl (extractStep answers) freeText)
        freeText).lookup k
      = if (sections.flatMap (fun s => s.questions)).any
            (fun q => decide (q.type = "text") && (answers.get q.id).truthy
              && decide (q.id = k)) = true
        then some (answers.get k) else freeText.lookup k := by
  induction sections generalizing freeText with
  | nil => simp
  | cons sec rest ih =>
    rw [List.foldl_cons, ih, lookup_foldl_extractStep, List.flatMap_cons, List.any_append]
    by_cases h1 : sec.questions.any (fun q => decide (q.type = "text")
        && (answers.get q.id).truthy && decide (q.id = k)) = true
    · simp [h1]
    · rw [Bool.not_eq_true] at h1
      simp [h1]

/-- The free-text map holds the answer of every answered free-text question. -/
theorem lookup_extractFreeTextFields (answers : Answers) (questionnaire : Questionnaire)
    (question : Question) (h : isAnsweredText answers questionnaire question) :
    (extractFreeTextFields answers questionnaire).lookup question.id
      = some (answers.get question.id) := by
  obtain ⟨hmem, htype, htruthy⟩ := h
  unfold extractFreeTextFields
  rw [lookup_extractFreeTextFields_aux, if_pos]
  rw [List.any_eq_true]
  exact ⟨question, hmem, by simp [htype, htruthy]⟩

theorem mem_keys_of_lookup (obj : Answers) (k : String) (v : JsVal)
    (h : obj.lookup k = some v) : k ∈ obj.map Prod.fst := by
  induction obj with
  | nil => simp [List.lookup] at h
  | cons e rest ih =>
    obtain ⟨ek, ev⟩ := e
    by_cases hk : k = ek
    · simp [hk]
    · have hne : (k == ek) = false := by simpa using hk
      simp only [List.lookup, hne] at h
      exact List.mem_cons_of_mem _ (ih h)

theorem mem_foldl_deleteProp (keys : List String) (obj : Answers) (e : String × JsVal) :
    e ∈ keys.foldl deleteProp obj ↔ e ∈ obj ∧ e.1 ∉ keys := by
  induction keys generalizing obj with
  | nil => simp
  | cons k rest ih =>
    rw [List.foldl_cons, ih]
    simp only [deleteProp, List.mem_filter, List.mem_cons, not_or, bne_iff_ne, ne_eq]
    tauto

/-- C22, as stated, fails: a free-text question answered with the empty
string keeps its key in the main answers map of the payload and does not reach
the free-text map. -/
theorem payload_keeps_blank_text :
    (generateSubmissionPayload sampleConfig [("name", .str ""), ("goal", .str "a")]
        payloadQuestionnaire "en" none lateDraws).answers.map Prod.fst = ["name", "goal"]
      ∧ (generateSubmissionPayload sampleConfig [("name", .str ""), ("goal", .str "a")]
        payloadQuestionnaire "en" none lateDraws).free_text_fields.isNone = true := by
  decide

theorem mem_keys_iff_lookup (obj : Answers) (k : String) :
    k ∈ obj.map Prod.fst ↔ ∃ v, obj.lookup k = some v := by
  induction obj with
  | nil => simp [List.lookup]
  | cons e rest ih =>
    obtain ⟨ek, ev⟩ := e
    by_cases hk : k = ek
    · simp [List.lookup, hk]
    · have hne : (k == ek) = false := by simpa using hk
      simp only [List.map_cons, List.mem_cons, hk, false_or, List.lookup, hne]
      exact ih

theorem foldl_deleteProp_sublist (keys : List String) (obj : Answers) :
    (keys.foldl deleteProp obj).Sublist obj := by
  induction keys generalizing obj with
  | nil => exact List.Sublist.refl _
  | cons k rest ih =>
    rw [List.foldl_cons]
    exact (ih _).trans (List.filter_sublist _)

/-- The free-text map holds exactly the ids of the answered free-text
questions, each with its answer. -/
theorem lookup_extract_iff (answers : Answers) (questionnaire : Questionnaire)
    (k : String) (v : JsVal) :
    (extractFreeTextFields answers questionnaire).lookup k = some v
      ↔ (∃ q, isAnsweredText answers questionnaire q ∧ q.id = k) ∧ v = answers.get k := by
  have hany : (questionnaire.sections.flatMap (fun s => s.questions)).any
        (fun q => decide (q.type = "text") && (answers.get q.id).truthy
          && decide (q.id = k)) = true
      ↔ ∃ q, isAnsweredText answers questionnaire q ∧ q.id = k := by
    rw [List.any_eq_true]
    constructor
    · rintro ⟨q, hmem, hq⟩
      simp only [Bool.and_eq_true, decide_eq_true_eq] at hq
      exact ⟨q, ⟨hmem, hq.1.1, hq.1.2⟩, hq.2⟩
    · rintro ⟨q, ⟨hmem, htype, htruthy⟩, hid⟩
      subst hid
      exact ⟨q, hmem, by simp [htype, htruthy]⟩
  unfold extractFreeTextFields
  rw [lookup_extractFreeTextFields_aux]
  by_cases h : (questionnaire.sections.flatMap (fun s => s.questions)).any
      (fun q => decide (q.type = "text") && (answers.get q.id).truthy
        && decide (q.id = k)) = true
  · rw [if_pos h]
    constructor
    · intro hv
      exact ⟨hany.mp h, (Option.some.inj hv).symm⟩
    · rintro ⟨_, hv⟩
      rw [hv]
  · rw [if_neg h]
    constructor
    · intro hv
      simp [List.lookup] at hv
    · rintro ⟨hq, _⟩
      exact absurd (hany.mpr hq) h

/-- The keys of the free-text map are the ids of the answered free-text
questions. -/
theorem mem_keys_extract (answers : Answers) (questionnaire : Questionnaire) (k : String) :
    k ∈ (extractFreeTextFields answers questionnaire).map Prod.fst
      ↔ ∃ q, isAnsweredText answers questionnaire q ∧ q.id = k := by
  rw [mem_keys_iff_lookup]
  constructor
  · rintro ⟨v, hv⟩
    exact ((lookup_extract_iff answers questionnaire k v).mp hv).1
  · intro hq
    exact ⟨answers.get k, (lookup_extract_iff answers questionnaire k _).mpr ⟨hq, rfl⟩⟩

/-- C22, amended: the main answers map of the payload holds neither the
consent key nor the id of a free-text question whose answer is present, and
every such id is in the free-text map with its answer. The id of a free-text
question whose answer is absent or falsy, such as the empty string, is not a
key of the free-text map, and its entry in the input answers stays in the
main answers map unless the id is the consent key. -/
theorem payload_answers_spec (config : ScoringConfig) (answers : Answers)
    (questionnaire : Questionnaire) (language : String) (startedAt : Option Int)
    (draws : Draws) :
    (∀ e ∈ (generateSubmissionPayload config answers questionnaire language startedAt
          draws).answers, e.1 ≠ "consent_agree")
      ∧ (∀ question, isAnsweredText answers questionnaire question →
          (∀ e ∈ (generateSubmissionPayload config answers questionnaire language startedAt
              draws).answers, e.1 ≠ question.id)
            ∧ ∃ fields, (generateSubmissionPayload config answers questionnaire language
                  startedAt draws).free_text_fields = some fields
                ∧ fields.lookup question.id = some (answers.get question.id))
      ∧ (∀ question ∈ questionnaire.sections.flatMap (fun s => s.questions),
          question.type = "text" → (answers.get question.id).truthy = false →
          (∀ fields, (generateSubmissionPayload config answers questionnaire language
                startedAt draws).free_text_fields = some fields →
              question.id ∉ fields.map Prod.fst)
            ∧ ∀ e ∈ answers, e.1 = question.id → e.1 ≠ "consent_agree" →
                e ∈ (generateSubmissionPayload config answers questionnaire language
                  startedAt draws).answers) := by
  have hanswers :
      (generateSubmissionPayload config answers questionnaire language startedAt draws).answers
        = deleteProp
            (((extractFreeTextFields answers questionnaire).map Prod.fst).foldl
              deleteProp answers)
            "consent_agree" := rfl
  have hfields :
      (generateSubmissionPayload config answers questionnaire language startedAt
          draws).free_text_fields
        = if ((extractFreeTextFields answers questionnaire).map Prod.fst).length > 0
          then some (extractFreeTextFields answers questionnaire) else none := rfl
  have hmem : ∀ e, e ∈ deleteProp
        (((extractFreeTextFields answers questionnaire).map Prod.fst).foldl deleteProp answers)
        "consent_agree"
      ↔ e ∈ answers ∧ e.1 ≠ "consent_agree"
        ∧ ¬ ∃ q, isAnsweredText answers questionnaire q ∧ q.id = e.1 := by
    intro e
    have hdel := mem_foldl_deleteProp
      ((extractFreeTextFields answers questionnaire).map Prod.fst) answers e
    have hkeys := mem_keys_extract answers questionnaire e.1
    rw [deleteProp, List.mem_filter, bne_iff_ne]
    constructor
    · rintro ⟨hin, hne⟩
      obtain ⟨h1, h2⟩ := hdel.mp hin
      exact ⟨h1, hne, fun hq => h2 (hkeys.mpr hq)⟩
    · rintro ⟨h1, hne, h2⟩
      exact ⟨hdel.mpr ⟨h1, fun hk => h2 (hkeys.mp hk)⟩, hne⟩
  rw [hanswers, hfields]
  refine ⟨?_, ?_, ?_⟩
  · intro e he
    exact ((hmem e).mp he).2.1
  · intro question hq
    have hkey := (mem_keys_extract answers questionnaire question.id).mpr ⟨question, hq, rfl⟩
    constructor
    · intro e he heq
      exact ((hmem e).mp he).2.2 ⟨question, hq, heq.symm⟩
    · rw [if_pos (List.length_pos_of_mem hkey)]
      exact ⟨_, rfl,
        (lookup_extract_iff answers questionnaire question.id _).mpr ⟨⟨question, hq, rfl⟩, rfl⟩⟩
  · intro question _ _ hfalsy
    have hnot : ¬ ∃ q, isAnsweredText answers questionnaire q ∧ q.id = question.id := by
      rintro ⟨q, ⟨_, _, htruthy⟩, hid⟩
      rw [hid, hfalsy] at htruthy
      exact Bool.noConfusion htruthy
    constructor
    · intro fields hf hkey
      by_cases hpos : ((extractFreeTextFields answers questionnaire).map Prod.fst).length > 0
      · rw [if_pos hpos] at hf
        rw [← Option.some.inj hf] at hkey
        exact hnot ((mem_keys_extract answers questionnaire question.id).mp hkey)
      · rw [if_neg hpos] at hf
        exact Option.noConfusion hf
    · intro e he heq hne
      exact (hmem e).mpr ⟨he, hne, fun hq => hnot (heq ▸ hq)⟩

/-- Witness: the unit test, where the name `Ava` moves to the free-text map
and the consent key is dropped; and a name that is the empty string, which
stays in the main answers map. -/
theorem payload_answers_spec_witness :
    (generateSubmissionPayload sampleConfig payloadAnswers payloadQuestionnaire "en"
          (some 0) lateDraws).answers
        = [("attentionCheck", .str "sometimes"), ("goal", .str "a"),
           ("attendance", .str "always"), ("transportAccess", .str "difficult"),
           ("financialSituation", .str "difficult"), ("homeResponsibilities", .str "many"),
           ("deviceAccess", .str "no"), ("safety", .str "no")]
      ∧ (∃ fields, (generateSubmissionPayload sampleConfig payloadAnswers payloadQuestionnaire
            "en" (some 0) lateDraws).free_text_fields = some fields
          ∧ fields.lookup "name" = some (JsVal.str "Ava"))
      ∧ ("name", JsVal.str "") ∈ (generateSubmissionPayload sampleConfig
            [("name", .str ""), ("goal", .str "a")] payloadQuestionnaire "en" (some 0)
            lateDraws).answers :=
  ⟨rfl,
   ((payload_answers_spec sampleConfig payloadAnswers payloadQuestionnaire "en" (some 0)
      lateDraws).2.1 { id := "name", type := "text" }
      ⟨List.mem_cons_self _ _, rfl, rfl⟩).2,
   ((payload_answers_spec sampleConfig [("name", .str ""), ("goal", .str "a")]
      payloadQuestionnaire "en" (some 0) lateDraws).2.2 { id := "name", type := "text" }
      (List.mem_cons_self _ _) rfl rfl).2 ("name", JsVal.str "") (List.mem_cons_self _ _)
      rfl (by decide)⟩

/-- The band of a calculated practical preference that is not 0. -/
theorem practical_band_nonzero (config : ScoringConfig) (answers : Answers)
    (questionnaire : Questionnaire) (language : String) (startedAt : Option Int)
    (draws : Draws) (score : Int)
    (hscore : (calculateScores config answers questionnaire).lookup "practicalPreference"
      = some score)
    (hne : score ≠ 0) :
    (generateSubmissionPayload config answers questionnaire language startedAt
        draws).derived_fields.practical_preference_band
      = if score ≥ 60 then "high" else if score ≥ 40 then "medium" else "low" := by
  simp [generateSubmissionPayload, hscore, hne, getPracticalPreferenceBand]

/-- C23 at the score 0: with a calculated practical preference of 0 the band
of the payload is `medium`, while the band of the score 0 is `low`. -/
theorem practical_band_zero_is_medium :
    (calculateScores sampleConfig payloadAnswers payloadQuestionnaire).lookup
        "practicalPreference" = some 0
      ∧ (generateSubmissionPayload sampleConfig payloadAnswers payloadQuestionnaire "en"
          (some 0) lateDraws).derived_fields.practical_preference_band = "medium"
      ∧ getPracticalPreferenceBand 0 = "low" := by
  decide

theorem assessDataQuality_congr (config : ScoringConfig) (answers : Answers)
    (questionnaire : Questionnaire) (m₁ m₂ : Metadata)
    (h : m₁.completion_duration_seconds = m₂.completion_duration_seconds) :
    assessDataQuality config answers questionnaire m₁
      = assessDataQuality config answers questionnaire m₂ := by
  unfold assessDataQuality
  rw [h]

/-- C25, as stated, fails: two assemblies from the same inputs that read the
clock 2 and 20 seconds after the start get different assessments (risk high
with `speeding` against risk low). -/
theorem payload_quality_depends_on_clock :
    (generateSubmissionPayload sampleConfig payloadAnswers payloadQuestionnaire "en"
        (some 0) earlyDraws).data_quality
      ≠ (generateSubmissionPayload sampleConfig payloadAnswers payloadQuestionnaire "en"
        (some 0) lateDraws).data_quality := by
  decide

/-- C25, amended: two assemblies from the same inputs have identical derived
fields whatever they draw, and an identical assessment when they measure the
same completion duration. -/
theorem payload_roundtrip (config : ScoringConfig) (answers : Answers)
    (questionnaire : Questionnaire) (language : String) (startedAt : Option Int)
    (draws₁ draws₂ : Draws) :
    (generateSubmissionPayload config answers questionnaire language startedAt
          draws₁).derived_fields
        = (generateSubmissionPayload config answers questionnaire language startedAt
          draws₂).derived_fields
      ∧ ((generateSubmissionPayload config answers questionnaire language startedAt
            draws₁).metadata.completion_duration_seconds
          = (generateSubmissionPayload config answers questionnaire language startedAt
            draws₂).metadata.completion_duration_seconds →
        (generateSubmissionPayload config answers questionnaire language startedAt
            draws₁).data_quality
          = (generateSubmissionPayload config answers questionnaire language startedAt
            draws₂).data_quality) := by
  constructor
  · rfl
  · intro h
    exact assessDataQuality_congr config answers questionnaire _ _ h

/-- Witness: clock readings 20.0 and 20.4 seconds after the start measure the
same duration and give the same assessment. -/
theorem payload_roundtrip_witness :
    (generateSubmissionPayload sampleConfig payloadAnswers payloadQuestionnaire "en" (some 0)
        lateDraws).data_quality
      = (generateSubmissionPayload sampleConfig payloadAnswers payloadQuestionnaire "en"
        (some 0) { lateDraws with submissionId := "id-3", endTime := 20400 }).data_quality :=
  (payload_roundtrip sampleConfig payloadAnswers payloadQuestionnaire "en" (some 0)
    lateDraws { lateDraws with submissionId := "id-3", endTime := 20400 }).2 (by decide)

/-! ## The retry queue -/

theorem orZero_add_one (n : Int) : (if n != 0 then n else 0) + 1 = n + 1 := by
  by_cases h : n = 0 <;> simp [h]

theorem countP_add_countP_not {α : Type} (p : α → Bool) (l : List α) :
    l.countP p + l.countP (fun a => !p a) = l.length := by
  induction l with
  | nil => rfl
  | cons a rest ih =>
    cases hp : p a <;> simp [List.countP_cons, hp] <;> omega

theorem retryStep_storage (deliver : QueueItem → Bool) (st : RetryState) (item : QueueItem) :
    (retryStep deliver st item).storage = st.storage.filterMap (stepItem deliver item) := by
  unfold retryStep
  cases hd : deliver item with
  | true =>
    simp only [if_true, removeFromQueue]
    induction st.storage with
    | nil => rfl
    | cons q rest ih =>
      by_cases hq : q.submission_id = item.submission_id
      · simp [List.filter_cons, List.filterMap_cons, stepItem, hq, hd, ih]
      · simp [List.filter_cons, List.filterMap_cons, stepItem, hq, ih]
  | false =>
    simp only [Bool.false_eq_true, if_false, orZero_add_one]
    induction st.storage with
    | nil => rfl
    | cons q rest ih =>
      rw [List.map_cons, ih]
      by_cases hq : q.submission_id = item.submission_id
      · simp [List.filterMap_cons, stepItem, hq, hd, bumpRetry]
      · simp [List.filterMap_cons, stepItem, hq]

theorem trackItem_cons (deliver : QueueItem → Bool) (item : QueueItem)
    (rest : List QueueItem) (q : QueueItem) :
    trackItem deliver (item :: rest) (some q)
      = trackItem deliver rest (stepItem deliver item q) := rfl

theorem trackItem_none (deliver : QueueItem → Bool) (items : List QueueItem) :
    trackItem deliver items none = none := by
  induction items with
  | nil => rfl
  | cons item rest ih => simpa [trackItem] using ih

theorem foldl_retryStep_storage (deliver : QueueItem → Bool) (items : List QueueItem)
    (st : RetryState) :
    (items.foldl (retryStep deliver) st).storage
      = st.storage.filterMap (fun q => trackItem deliver items (some q)) := by
  induction items generalizing st with
  | nil => simp [trackItem]
  | cons item rest ih =>
    rw [List.foldl_cons, ih, retryStep_storage, List.filterMap_filterMap]
    apply List.filterMap_congr
    intro q _
    rw [trackItem_cons]
    cases stepItem deliver item q with
    | none => exact (trackItem_none deliver rest).symm
    | some q2 => rfl

theorem foldl_retryStep_counts (deliver : QueueItem → Bool) (items : List QueueItem)
    (st : RetryState) :
    (items.foldl (retryStep deliver) st).succeeded
        = st.succeeded + items.countP deliver
      ∧ (items.foldl (retryStep deliver) st).failed
        = st.failed + items.countP (fun q => !deliver q) := by
  induction items generalizing st with
  | nil => simp
  | cons item rest ih =>
    rw [List.foldl_cons]
    obtain ⟨h1, h2⟩ := ih (retryStep deliver st item)
    rw [h1, h2]
    cases hd : deliver item <;> simp [retryStep, hd, List.countP_cons] <;> omega

theorem trackItem_other (deliver : QueueItem → Bool) (items : List QueueItem) (q : QueueItem)
    (h : q.submission_id ∉ items.map (fun i => i.submission_id)) :
    trackItem deliver items (some q) = some q := by
  induction items with
  | nil => rfl
  | cons item rest ih =>
    have hne : q.submission_id ≠ item.submission_id := fun heq =>
      h (heq ▸ List.mem_cons_self _ _)
    have hrest : q.submission_id ∉ rest.map (fun i => i.submission_id) := fun hm =>
      h (List.mem_cons_of_mem _ hm)
    have hstep : stepItem deliver item q = some q := by simp [stepItem, hne]
    rw [trackItem_cons, hstep]
    exact ih hrest

theorem trackItem_mem (deliver : QueueItem → Bool) (items : List QueueItem) (q : QueueItem)
    (hnodup : (items.map (fun i => i.submission_id)).Nodup) (hq : q ∈ items) :
    trackItem deliver items (some q)
      = if deliver q then none else some (bumpRetry q) := by
  induction items with
  | nil => cases hq
  | cons item rest ih =>
    rw [List.map_cons, List.nodup_cons] at hnodup
    obtain ⟨hfresh, hrest⟩ := hnodup
    rw [trackItem_cons]
    rcases List.mem_cons.mp hq with heq | hmem
    · subst heq
      cases hd : deliver q with
      | true =>
        have hstep : stepItem deliver q q = none := by simp [stepItem, hd]
        rw [hstep]
        simpa using trackItem_none deliver rest
      | false =>
        have hstep : stepItem deliver q q = some (bumpRetry q) := by simp [stepItem, hd]
        rw [hstep]
        simpa using trackItem_other deliver rest (bumpRetry q) hfresh
    · have hne : q.submission_id ≠ item.submission_id := by
        intro heq
        apply hfresh
        rw [← heq]
        exact List.mem_map.mpr ⟨q, hmem, rfl⟩
      have hstep : stepItem deliver item q = some q := by simp [stepItem, hne]
      rw [hstep]
      exact ih hrest hmem

theorem filterMap_failed (deliver : QueueItem → Bool) (items : List QueueItem) :
    items.filterMap (fun q => if deliver q then none else some (bumpRetry q))
      = (items.filter (fun q => !deliver q)).map bumpRetry := by
  induction items with
  | nil => rfl
  | cons q rest ih =>
    cases hd : deliver q <;> simp [List.filterMap_cons, List.filter_cons, hd, ih]

/-- C26: on a queue with pairwise distinct submission ids,
`retryQueuedSubmissions` leaves exactly the items whose delivery failed, in
their original order, each with its retry count increased by one; an item is
gone exactly when its delivery succeeded, and the two counts sum to the
initial length. -/
theorem retryQueuedSubmissions_spec (deliver : QueueItem → Bool) (storage : List QueueItem)
    (hnodup : (storage.map (fun i => i.submission_id)).Nodup) :
    (retryQueuedSubmissions deliver storage).storage
        = (storage.filter (fun q => !deliver q)).map bumpRetry
      ∧ (∀ q ∈ storage,
          (∃ q2 ∈ (retryQueuedSubmissions deliver storage).storage,
              q2.submission_id = q.submission_id) ↔ deliver q = false)
      ∧ (retryQueuedSubmissions deliver storage).succeeded = storage.countP deliver
      ∧ (retryQueuedSubmissions deliver storage).failed
          = storage.countP (fun q => !deliver q)
      ∧ (retryQueuedSubmissions deliver storage).succeeded
          + (retryQueuedSubmissions deliver storage).failed = storage.length := by
  have hstorage : (retryQueuedSubmissions deliver storage).storage
      = (storage.filter (fun q => !deliver q)).map bumpRetry := by
    unfold retryQueuedSubmissions
    rw [foldl_retryStep_storage, ← filterMap_failed]
    apply List.filterMap_congr
    intro q hq
    exact trackItem_mem deliver storage q hnodup hq
  obtain ⟨hs, hf⟩ := foldl_retryStep_counts deliver storage
    { storage := storage, succeeded := 0, failed := 0 }
  have hs2 : (retryQueuedSubmissions deliver storage).succeeded = storage.countP deliver := by
    simpa [retryQueuedSubmissions] using hs
  have hf2 : (retryQueuedSubmissions deliver storage).failed
      = storage.countP (fun q => !deliver q) := by
    simpa [retryQueuedSubmissions] using hf
  refine ⟨hstorage, ?_, hs2, hf2, ?_⟩
  · intro q hq
    rw [hstorage]
    constructor
    · rintro ⟨q2, hq2, hid⟩
      obtain ⟨q0, hq0, rfl⟩ := List.mem_map.mp hq2
      rw [List.mem_filter] at hq0
      have heq : q0 = q := List.inj_on_of_nodup_map hnodup hq0.1 hq hid
      rw [← heq]
      simpa using hq0.2
    · intro hd
      exact ⟨bumpRetry q, List.mem_map.mpr ⟨q, List.mem_filter.mpr ⟨hq, by simp [hd]⟩, rfl⟩,
        rfl⟩
  · rw [hs2, hf2]
    exact countP_add_countP_not deliver storage

/-- Witness: of three queued items the second is delivered; the first and
the third stay, with their retry counts increased. -/
theorem retryQueuedSubmissions_spec_witness :
    (sampleQueue.map (fun i => i.submission_id)).Nodup
      ∧ (retryQueuedSubmissions (fun q => q.submission_id == "b") sampleQueue).storage
          = [{ submission_id := "a", queued_at := "t0", retry_count := 1, body := "x" },
             { submission_id := "c", queued_at := "t2", retry_count := 1, body := "z" }]
      ∧ (retryQueuedSubmissions (fun q => q.submission_id == "b") sampleQueue).succeeded
          + (retryQueuedSubmissions (fun q => q.submission_id == "b") sampleQueue).failed
          = sampleQueue.length :=
  ⟨by decide, by decide,
   (retryQueuedSubmissions_spec (fun q => q.submission_id == "b") sampleQueue
      (by decide)).2.2.2.2⟩

/-! ## Claims on the submit function and the calendar -/

/-- The requests that the validation of the handler rejects: another method
than POST gets 405, a body that does not parse gets 400, and a parsed
body other than `null` that lacks a required field gets 400; the e-mail
service is not called. -/
theorem handler_rejects (event : HttpEvent) (apiKey : Option String) (delivery : Delivery) :
    (event.httpMethod ≠ "POST" → handler event apiKey delivery = Outcome.response 405 false)
      ∧ (event.httpMethod = "POST" → event.body = none →
          handler event apiKey delivery = Outcome.response 400 false)
      ∧ (event.httpMethod = "POST" → ∀ payload, event.body = some payload →
          payload.fieldTruthy "submission_id" ≠ none →
          (∃ field ∈ ["submission_id", "created_at", "answers"], payload.lacks field) →
          handler event apiKey delivery = Outcome.response 400 false) := by
  refine ⟨?_, ?_, ?_⟩
  · intro h
    simp [handler, h]
  · intro h hb
    simp [handler, h, hb]
  · intro h payload hb hnull hlack
    simp only [handler, h, hb]
    cases payload with
    | null => exact absurd rfl hnull
    | obj fields =>
      obtain ⟨field, hmem, hl⟩ := hlack
      simp only [Json.lacks] at hl
      simp only [List.mem_cons, List.mem_singleton, List.not_mem_nil, or_false] at hmem
      have hv : validateRequired (Json.obj fields) ["submission_id", "created_at", "answers"]
          = some (Outcome.response 400 false) := by
        simp only [validateRequired, Json.fieldTruthy]
        rcases hmem with rfl | rfl | rfl
        · simp [hl]
        · rw [hl]
          cases fields.lookup "submission_id" with
          | none => simp
          | some v => cases hvt : v.truthy <;> simp [hvt]
        · rw [hl]
          cases fields.lookup "submission_id" with
          | none => simp
          | some v =>
            cases hvt : v.truthy with
            | false => simp [hvt]
            | true =>
              cases fields.lookup "created_at" with
              | none => simp [hvt]
              | some w => cases hwt : w.truthy <;> simp [hvt, hwt]
      simp [hv]
    | bool b => simp [validateRequired, Json.fieldTruthy]
    | num n => simp [validateRequired, Json.fieldTruthy]
    | str t => simp [validateRequired, Json.fieldTruthy]
    | arr xs => simp [validateRequired, Json.fieldTruthy]

/-- C27 at the body `null`: the body parses, it lacks every required field,
and the handler throws a `TypeError` on `payload[field]` and answers no
400. -/
theorem handler_null_body_throws (apiKey : Option String) (delivery : Delivery) :
    Json.lacks Json.null "submission_id"
      ∧ handler { httpMethod := "POST", body := some Json.null } apiKey delivery
          = Outcome.typeError
      ∧ handler { httpMethod := "POST", body := some Json.null } apiKey delivery
          ≠ Outcome.response 400 false := by
  refine ⟨trivial, rfl, ?_⟩
  intro h
  have h2 : handler { httpMethod := "POST", body := some Json.null } apiKey delivery
      = Outcome.typeError := rfl
  rw [h2] at h
  cases h

/-- C28: `getSaSchoolTermStatus` is in term without a term number when the
calendar has no entry for the year of the date, is in term with the number of
the first term whose inclusive range contains the date when there is one, and
is out of term when the year is configured and no term contains the date. -/
theorem getSaSchoolTermStatus_spec (calendar : Calendar) (date : LocalDate) :
    (calendar.lookup date.year = none →
        getSaSchoolTermStatus calendar date
          = { inTerm := true, term := none, year := date.year })
      ∧ (∀ before term after, calendar.lookup date.year = some (before ++ term :: after) →
          (∀ t ∈ before, t.contains date = false) → term.contains date = true →
          getSaSchoolTermStatus calendar date
            = { inTerm := true, term := some term.term, year := date.year })
      ∧ (∀ terms, calendar.lookup date.year = some terms →
          (∀ t ∈ terms, t.contains date = false) →
          getSaSchoolTermStatus calendar date
            = { inTerm := false, term := none, year := date.year }) := by
  have hskip : ∀ (before rest : List SchoolTerm),
      (∀ t ∈ before, t.contains date = false) →
      termLoop date date.year (before ++ rest) = termLoop date date.year rest := by
    intro before rest hb
    induction before with
    | nil => rfl
    | cons t ts ih =>
      have ht : (t.start.le date && date.le t.end_) = false := hb t (List.mem_cons_self _ _)
      rw [List.cons_append, termLoop, ht]
      exact ih (fun u hu => hb u (List.mem_cons_of_mem _ hu))
  refine ⟨?_, ?_, ?_⟩
  · intro h
    simp [getSaSchoolTermStatus, h]
  · intro before term after h hb ht
    have ht2 : (term.start.le date && date.le term.end_) = true := ht
    simp only [getSaSchoolTermStatus, h]
    rw [hskip before (term :: after) hb, termLoop, ht2]
    rfl
  · intro terms h hall
    simp only [getSaSchoolTermStatus, h]
    have h2 := hskip terms [] hall
    rw [List.append_nil] at h2
    rw [h2]
    rfl

/-- Witness: 10 February 2026 lies in term 1, 1 April 2026 lies between the
terms, and 15 January 2027 has no calendar. -/
theorem getSaSchoolTermStatus_spec_witness :
    getSaSchoolTermStatus sampleCalendar ⟨2027, 1, 15⟩
        = { inTerm := true, term := none, year := 2027 }
      ∧ getSaSchoolTermStatus sampleCalendar ⟨2026, 2, 10⟩
        = { inTerm := true, term := some 1, year := 2026 }
      ∧ getSaSchoolTermStatus sampleCalendar ⟨2026, 4, 1⟩
        = { inTerm := false, term := none, year := 2026 }
      ∧ getSaSchoolTermStatus sampleCalendar ⟨2026, 4, 8⟩
        = { inTerm := true, term := some 2, year := 2026 } :=
  ⟨(getSaSchoolTermStatus_spec sampleCalendar ⟨2027, 1, 15⟩).1 (by decide),
   by decide, by decide,
   (getSaSchoolTermStatus_spec sampleCalendar ⟨2026, 4, 8⟩).2.1
     [{ term := 1, start := ⟨2026, 1, 14⟩, end_ := ⟨2026, 3, 27⟩ }]
     { term := 2, start := ⟨2026, 4, 8⟩, end_ := ⟨2026, 6, 26⟩ } [] (by decide)
     (by decide) (by decide)⟩

end CareerGuide
